import Mathlib

/-!
Verification development for the DecyAI repository.

This file shallowly embeds the core of the repository's JavaScript services
(`services/intelligence.js`, `services/recommendation.js`, `services/scraper.js`
and the legacy recommendation engine bundled with the server) as executable
Lean definitions, and proves / refutes the frozen specification claims.

Modelling conventions:
* JavaScript strings are Lean `String`; `toLowerCase`, `trim`, `includes`,
  `split(/\s+/)` and `split(' ')` are re-implemented below as `jsLower`,
  `jsTrim`, `jsIncludes`, `jsWords` and `splitOnChar` (ASCII-level case
  mapping; all inputs of interest are ASCII).
* JavaScript's (since ES2019 stable) `Array.prototype.sort` with a numeric
  key comparator in descending order is modelled by the stable insertion
  sort `sortByKeyDesc`; stable sorts by a fixed key are extensionally unique,
  so any stable implementation is a faithful model.
* JavaScript objects used as string-keyed maps (`tools.categories`,
  `categoryScores`) are association lists; `Object.entries` iteration order
  for string keys is insertion order, which the association list preserves.
* JS numbers that occur in the claims (`confidence`) are modelled as `ℚ`;
  every comparison appearing in a claim (`min(score/20,1)`, `≥ 0.5`, `0.3`)
  is exact in both binary floating point and `ℚ`.
* External effects (Groq/Gemini completion calls, HTTP fetches, the process
  clock, `fs` reads/writes of `tools.json` / `discovered.json`) are passed in
  as explicit parameters / state (`AIOutcome`, `Option RawData`, `today`,
  `now`, `ScraperState`); the parsed contents of the persisted documents are
  the `Catalog` / `DiscoveredLog` values.
-/

namespace Decy

/-! ## JavaScript string primitives -/

/-- Model of `s.toLowerCase()` (ASCII case mapping). -/
def jsLower (s : String) : String := ⟨s.data.map Char.toLower⟩

/-- Model of `s.trim()`: drop whitespace from both ends. -/
def jsTrim (s : String) : String :=
  ⟨((s.data.dropWhile Char.isWhitespace).reverse.dropWhile Char.isWhitespace).reverse⟩

/-- Does `hay` start with `sub` (character-wise)? -/
def listStartsWith : List Char → List Char → Bool
  | _, [] => true
  | [], _ :: _ => false
  | h :: hs, n :: ns => h == n && listStartsWith hs ns

/-- Does `hay` contain `sub` as a contiguous run? -/
def listHasSub : List Char → List Char → Bool
  | [], sub => listStartsWith [] sub
  | hay@(_ :: t), sub => listStartsWith hay sub || listHasSub t sub

/-- Model of `s.includes(sub)` for JS strings. -/
def jsIncludes (s sub : String) : Bool := listHasSub s.data sub.data

/-- Worker for `wsSplit`: `inWs` records whether the previous character was
whitespace (a maximal whitespace run is a single separator); `cur` is the
current token, reversed. -/
def wsSplitAux : Bool → List Char → List Char → List (List Char)
  | _, cur, [] => [cur.reverse]
  | inWs, cur, c :: rest =>
    if c.isWhitespace then
      if inWs then wsSplitAux true cur rest
      else cur.reverse :: wsSplitAux true [] rest
    else wsSplitAux false (c :: cur) rest

/-- Model of `s.split(/\s+/)`: split on maximal whitespace runs; a leading or
trailing run contributes an empty-string element, exactly as in JS. -/
def wsSplit (s : List Char) : List (List Char) := wsSplitAux false [] s

/-- Model of `query.split(/\s+/)` returning strings. -/
def jsWords (s : String) : List String := (wsSplit s.data).map (⟨·⟩)

/-- Model of `s.split(c)` for a single separator character (e.g. `split(' ')`);
consecutive separators produce empty-string elements, as in JS. -/
def splitOnChar (sep : Char) : List Char → List (List Char)
  | [] => [[]]
  | c :: rest =>
    if c == sep then
      [] :: splitOnChar sep rest
    else
      match splitOnChar sep rest with
      | [] => [[c]]
      | t :: ts => (c :: t) :: ts

/-- `s.split(' ')` returning strings. -/
def splitSpace (s : String) : List String := (splitOnChar ' ' s.data).map (⟨·⟩)

/-- JS `s || d` for a string `s` (empty string is falsy). -/
def strOr (s d : String) : String := if s == "" then d else s

/-- JS `o || d` where `o` may be `undefined` (`none`) or a string. -/
def optOr (o : Option String) (d : String) : String :=
  match o with
  | some s => strOr s d
  | none => d

/-! ## Stable descending sort by a numeric key

Models `arr.sort((a, b) => key(b) - key(a))` under ES2019+ stable-sort
semantics: descending by key, ties keep original order. -/

/-- Insert `a` in front of the first element whose key is `≤ key a`
(elements inserted later go after equal-keyed earlier elements). -/
def insertDesc (key : α → Nat) (a : α) : List α → List α
  | [] => [a]
  | b :: bs => if key a < key b then b :: insertDesc key a bs else a :: b :: bs

/-- Stable descending insertion sort by `key`. -/
def sortByKeyDesc (key : α → Nat) (l : List α) : List α :=
  l.foldr (insertDesc key) []

/-- State-threaded "track the best" fold: keeps the first element whose score
strictly exceeds everything before it, exactly as the JS
`if (score > bestScore) { bestScore = score; bestMatch = pattern; }` loop. -/
def runBest (f : α → Nat) : List α → Option α × Nat → Option α × Nat
  | [], st => st
  | p :: ps, st => runBest f ps (if st.2 < f p then (some p, f p) else st)

/-- Maximum of `key` over a list, with `0` for the empty list. -/
def maxOf (key : α → Nat) (l : List α) : Nat :=
  l.foldl (fun m a => max m (key a)) 0

/-! ## Data model (`tools.json`)

`Tool` follows §3 of the spec / the shape produced and consumed by the code:
optional JS fields are `Option`-valued. `deploy.type` is renamed
`deployType` (`type` is unidiomatic as a Lean field name). -/

structure DeployInfo where
  available : Bool
  deployType : String
  note : String
deriving DecidableEq, Repr

structure Pricing where
  free : Bool
  premium : Option String
deriving DecidableEq, Repr

structure Tool where
  id : String
  name : String
  bestFor : String
  deploy : Option DeployInfo := none
  limits : Option String := none
  pricing : Pricing
  whySuitsYou : Option String := none
  ease : Option Nat := none
  url : String
  acceptsPrompt : Bool := false
  promptHint : Option String := none
deriving DecidableEq, Repr

structure Category where
  name : String
  icon : String
  keywords : List String
  tools : List Tool
deriving DecidableEq, Repr

structure Metadata where
  totalTools : Nat
  lastUpdated : String
deriving DecidableEq, Repr

structure Catalog where
  categories : List (String × Category)
  metadata : Metadata
deriving DecidableEq, Repr

/-- `tools.categories[key]` (first association-list hit). -/
def lookupCat (cats : List (String × Category)) (key : String) : Option Category :=
  (cats.find? (fun kc => kc.1 == key)).map (·.2)

/-- `(tool.ease || 3)` as used by every ease comparator. -/
def easeKey (t : Tool) : Nat := t.ease.getD 3

/-! ## Intelligence layer (`services/intelligence.js`, class `DecyIntelligence`) -/

/-- A flattened tool as built by `flattenTools`: the tool's own fields plus
category info and the precomputed lowercase `searchText` blob. -/
structure FlatTool where
  tool : Tool
  categoryKey : String
  categoryName : String
  categoryKeywords : List String
  searchText : String
deriving DecidableEq, Repr

/-- `flattenTools()`: every tool of every category, in catalog order, with
`searchText = [name, bestFor, whySuitsYou || '', limits || '', ...keywords].join(' ').toLowerCase()`. -/
def flattenTools (c : Catalog) : List FlatTool :=
  c.categories.flatMap fun kc =>
    kc.2.tools.map fun t =>
      { tool := t
        categoryKey := kc.1
        categoryName := kc.2.name
        categoryKeywords := kc.2.keywords
        searchText := jsLower (String.intercalate " "
          ([t.name, t.bestFor, t.whySuitsYou.getD "", t.limits.getD ""] ++ kc.2.keywords)) }

/-- One entry of the static intent map (`buildIntentMap()`). -/
structure IntentPattern where
  intents : List String
  category : String
  context : String
  priority : List String
deriving DecidableEq, Repr

def portfolioPattern : IntentPattern :=
  { intents := ["portfolio", "personal website", "personal site", "showcase my work", "online presence"]
    category := "app_building"
    context := "The user wants to build a personal portfolio website to showcase their work. Recommend app/website builders that are easy to use and produce professional-looking sites."
    priority := ["lovable", "bolt", "v0"] }

def landingPagePattern : IntentPattern :=
  { intents := ["landing page", "saas", "startup website", "product page", "business website"]
    category := "app_building"
    context := "The user wants to build a professional landing page or business website. Recommend tools that can create polished, conversion-optimized pages."
    priority := ["lovable", "bolt", "v0"] }

def appPattern : IntentPattern :=
  { intents := ["app", "mobile app", "web app", "build app", "create app", "develop app", "mvp", "prototype"]
    category := "app_building"
    context := "The user wants to build a functional application. Recommend no-code/low-code builders that can create real, deployable apps."
    priority := ["lovable", "bolt", "replit"] }

def logoPattern : IntentPattern :=
  { intents := ["logo", "brand identity", "branding", "brand kit", "company logo"]
    category := "design"
    context := "The user needs logo/branding design. Recommend AI tools specifically built for logo creation."
    priority := ["looka", "canva_design", "kittl"] }

def posterPattern : IntentPattern :=
  { intents := ["poster", "flyer", "banner", "social media post", "instagram post", "thumbnail", "cover image", "marketing material"]
    category := "design"
    context := "The user wants to create visual marketing content. Recommend design tools with templates for social media and marketing."
    priority := ["canva_design", "kittl", "figma"] }

def uiDesignPattern : IntentPattern :=
  { intents := ["ui design", "wireframe", "mockup", "prototype design", "user interface", "figma"]
    category := "design"
    context := "The user needs to design user interfaces or wireframes. Recommend professional UI/UX design tools."
    priority := ["figma", "uizard", "canva_design"] }

def imageGenPattern : IntentPattern :=
  { intents := ["generate image", "create image", "ai art", "artwork", "illustration", "picture", "image generation", "ai image", "draw"]
    category := "image_generation"
    context := "The user wants to generate images from text descriptions. Recommend AI image generators."
    priority := ["ideogram", "leonardo", "midjourney"] }

def photoEditPattern : IntentPattern :=
  { intents := ["edit photo", "remove background", "enhance photo", "photo editing", "retouch", "upscale image"]
    category := "image_editing"
    context := "The user wants to edit or enhance existing photos. Recommend photo editing AI tools."
    priority := ["canva", "remove_bg", "clipdrop"] }

def videoEditPattern : IntentPattern :=
  { intents := ["video", "edit video", "reel", "short", "youtube", "tiktok", "clip", "montage"]
    category := "video_creation"
    context := "The user wants to create or edit video content. Recommend video editing tools."
    priority := ["capcut", "descript", "invideo"] }

def videoGenPattern : IntentPattern :=
  { intents := ["generate video", "text to video", "ai video", "animate", "motion", "video from text"]
    category := "video_creation"
    context := "The user wants to generate video from text or images using AI. Recommend AI video generators."
    priority := ["runway", "pika", "invideo"] }

def avatarPattern : IntentPattern :=
  { intents := ["talking head", "avatar video", "spokesperson", "virtual presenter"]
    category := "video_creation"
    context := "The user wants AI-generated talking head or avatar videos. Recommend avatar video tools."
    priority := ["heygen", "synthesia", "d-id"] }

def writingPattern : IntentPattern :=
  { intents := ["write", "blog", "article", "essay", "content", "copywriting", "email", "marketing copy"]
    category := "writing"
    context := "The user wants to write or generate text content. Recommend AI writing tools."
    priority := ["notion_ai", "copy_ai", "jasper"] }

def grammarPattern : IntentPattern :=
  { intents := ["grammar", "proofread", "spelling", "editing text", "paraphrase", "rewrite"]
    category := "writing"
    context := "The user wants to check grammar, paraphrase, or improve existing text. Recommend editing/grammar tools."
    priority := ["grammarly", "quillbot", "wordtune"] }

def codingPattern : IntentPattern :=
  { intents := ["code", "programming", "debug", "developer", "coding assistant", "autocomplete", "copilot"]
    category := "coding_assistance"
    context := "The user needs help with coding or programming. Recommend AI coding assistants."
    priority := ["cursor", "github_copilot", "chatgpt"] }

def presentationPattern : IntentPattern :=
  { intents := ["presentation", "slides", "pitch deck", "ppt", "powerpoint", "keynote", "slide deck"]
    category := "presentation"
    context := "The user wants to create a presentation or slide deck. Recommend AI presentation tools."
    priority := ["gamma", "tome", "beautiful_ai"] }

def voicePattern : IntentPattern :=
  { intents := ["voice", "voiceover", "text to speech", "narration", "dubbing", "voice clone"]
    category := "audio"
    context := "The user needs text-to-speech, voiceovers, or voice generation. Recommend voice AI tools."
    priority := ["elevenlabs", "murf", "play_ht"] }

def musicPattern : IntentPattern :=
  { intents := ["music", "song", "beat", "soundtrack", "jingle", "compose"]
    category := "music_generation"
    context := "The user wants to create music or audio content. Recommend AI music tools."
    priority := ["suno", "udio", "aiva"] }

def meetingPattern : IntentPattern :=
  { intents := ["meeting notes", "transcribe", "summarize meeting", "meeting summary"]
    category := "productivity"
    context := "The user wants to transcribe or summarize meetings. Recommend meeting AI tools."
    priority := ["otter", "fireflies", "granola"] }

def researchPattern : IntentPattern :=
  { intents := ["research", "find information", "academic", "papers", "study"]
    category := "research"
    context := "The user needs help with research or finding information. Recommend AI research tools."
    priority := ["perplexity", "elicit", "consensus"] }

def resumePattern : IntentPattern :=
  { intents := ["resume", "cv", "cover letter", "job application"]
    category := "design"
    context := "The user wants to create a resume or CV. Recommend design tools with resume templates, AND website builders for online portfolios."
    priority := ["canva_design", "lovable", "notion_ai"] }

/-- The static intent map, in source order. -/
def intentMap : List IntentPattern :=
  [portfolioPattern, landingPagePattern, appPattern,
   logoPattern, posterPattern, uiDesignPattern,
   imageGenPattern, photoEditPattern,
   videoEditPattern, videoGenPattern, avatarPattern,
   writingPattern, grammarPattern,
   codingPattern, presentationPattern,
   voicePattern, musicPattern,
   meetingPattern, researchPattern,
   resumePattern]

/-- Result record of `analyzeIntent` (the guidance-only JS fields `isGuidance`
and `tool` are defaulted for non-guidance results). -/
structure IntentResult where
  matched : Bool
  category : Option String
  context : String
  confidence : ℚ
  tools : List FlatTool
  isGuidance : Bool := false
  guidedTool : Option FlatTool := none
deriving DecidableEq, Repr

/-- Guidance signal phrases from `detectToolGuidance`. -/
def guidanceSignals : List String :=
  ["how to use", "how to create", "how to build", "how to make",
   "how do i use", "how does", "guide me", "teach me", "help me use",
   "steps to use", "tutorial", "how to start with", "getting started",
   "using the", "using it", "how can i use", "what can i do with",
   "tips for", "how to get started"]

/-- The template-built guidance context string. -/
def guidanceContext (t : FlatTool) : String :=
  "The user is asking for guidance on HOW TO USE " ++ t.tool.name ++
  ". DO NOT recommend other tools. Instead, give a clear step-by-step guide on how to use " ++
  t.tool.name ++
  " effectively. Include: 1) How to get started 2) Key features to use 3) Tips for best results. Tool details: " ++
  t.tool.bestFor ++ ". URL: " ++ t.tool.url

/-- `detectToolGuidance(query)`: a guidance signal phrase plus a known tool
name or id (case-insensitive substring) yields a confidence-1.0 guidance
result on exactly that tool; the early-returning JS loop over `allToolsFlat`
is `find?`. -/
def detectToolGuidance (flat : List FlatTool) (query : String) : Option IntentResult :=
  if guidanceSignals.any (fun s => jsIncludes query s) then
    match flat.find? (fun t =>
        jsIncludes query (jsLower t.tool.name) || jsIncludes query (jsLower t.tool.id)) with
    | some t =>
      some { matched := true
             isGuidance := true
             category := some t.categoryKey
             guidedTool := some t
             context := guidanceContext t
             confidence := 1
             tools := [t] }
    | none => none
  else none

/-- The per-pattern score loop of `analyzeIntent`: `+20` for each intent
phrase that is a substring of the query, `+5` for each word of each intent
phrase (split on single spaces) that occurs verbatim in the query's word
list. -/
def patternScore (query : String) (words : List String) (p : IntentPattern) : Nat :=
  p.intents.foldl
    (fun acc intent =>
      (splitSpace intent).foldl
        (fun a iw => a + (if words.contains iw then 5 else 0))
        (acc + (if jsIncludes query intent then 20 else 0)))
    0

/-- The `for (tool of categoryTools) { if (tools.length >= 6) break; tools.push(tool); }`
padding loop of `getRelevantTools`. -/
def padLoop (acc : List FlatTool) : List FlatTool → List FlatTool
  | [] => acc
  | t :: ts => if 6 ≤ acc.length then acc else padLoop (acc ++ [t]) ts

/-- The priority-resolution loop of `getRelevantTools`: accumulated tools
paired with the `addedIds` set (modelled as the list of ids in insertion
order). -/
def resolveStep (flat : List FlatTool) (acc : List FlatTool × List String)
    (pid : String) : List FlatTool × List String :=
  match flat.find? (fun t => t.tool.id == pid) with
  | some t =>
    if acc.2.contains t.tool.id then acc else (acc.1 ++ [t], acc.2 ++ [t.tool.id])
  | none => acc

/-- `getRelevantTools(pattern, query)`: priority tools first (deduplicated by
id), then same-category tools not already added, in stable descending-ease
order, until six tools. (`query` is accepted and unused, as in the source.) -/
def getRelevantTools (flat : List FlatTool) (p : IntentPattern) (_query : String) :
    List FlatTool :=
  let r := p.priority.foldl (resolveStep flat) ([], [])
  let categoryTools := sortByKeyDesc (fun t => easeKey t.tool)
    (flat.filter (fun t => t.categoryKey == p.category && !r.2.contains t.tool.id))
  padLoop r.1 categoryTools

/-- The per-tool score loop of `searchAllTools`: words shorter than three
characters are skipped; `+5` for a hit in `searchText`, `+15` for a hit in
the lowercased tool name. -/
def toolScore (queryWords : List String) (t : FlatTool) : Nat :=
  queryWords.foldl
    (fun s w =>
      if w.length < 3 then s
      else (s + (if jsIncludes t.searchText w then 5 else 0))
             + (if jsIncludes (jsLower t.tool.name) w then 15 else 0))
    0

/-- `searchAllTools(query)`: tools scoring above zero, stable-sorted by
descending score, first six. (The JS result objects also carry a cached
`matchScore` field, which no consumer reads; the model keeps the tools.) -/
def searchAllTools (flat : List FlatTool) (query : String) : List FlatTool :=
  let queryWords := jsWords (jsLower query)
  (sortByKeyDesc (toolScore queryWords)
      (flat.filter (fun t => 0 < toolScore queryWords t))).take 6

/-- The keyword-fallback / no-match tail of `analyzeIntent`. -/
def keywordFallback (flat : List FlatTool) (query : String) : IntentResult :=
  let fallbackTools := searchAllTools flat query
  if 0 < fallbackTools.length then
    { matched := true
      category := some "mixed"
      context := "The user is looking for: \"" ++ query ++ "\". Found tools by keyword match."
      confidence := 3/10
      tools := fallbackTools.take 6 }
  else
    { matched := false
      category := none
      context := "Could not determine specific tool needs from the message."
      confidence := 0
      tools := [] }

/-- `analyzeIntent(userMessage)`: guidance detection first, then the
pattern-scoring loop (strict `>` keeps the first pattern on ties), the
`bestMatch && bestScore >= 5` acceptance test, and otherwise the keyword
fallback. -/
def analyzeIntent (c : Catalog) (userMessage : String) : IntentResult :=
  let query := jsTrim (jsLower userMessage)
  let flat := flattenTools c
  match detectToolGuidance flat query with
  | some g => g
  | none =>
    let words := jsWords query
    let best := runBest (patternScore query words) intentMap (none, 0)
    match best.1 with
    | some bestMatch =>
      if 5 ≤ best.2 then
        { matched := true
          category := some bestMatch.category
          context := bestMatch.context
          confidence := min ((best.2 : ℚ) / 20) 1
          tools := getRelevantTools flat bestMatch query }
      else keywordFallback flat query
    | none => keywordFallback flat query

/-! ## Specification-side formulation of §4.1 steps 2–3 (claim C2)

These definitions follow the wording of the claim/spec rather than the JS
control flow: scores as weighted counts, the winner as the first pattern
attaining the maximum score, priority resolution as resolve-then-deduplicate,
and padding as an appended `take`. -/

/-- Claim wording: "+20 per intent phrase that is a substring of the lowercased
query plus +5 per intent-phrase word appearing as a whole word in the query". -/
def specPatternScore (query : String) (words : List String) (p : IntentPattern) : Nat :=
  20 * p.intents.countP (jsIncludes query)
    + 5 * (p.intents.flatMap splitSpace).countP words.contains

/-- Deduplicate by tool id, keeping first occurrences, with an explicit
already-seen accumulator. -/
def dedupByIdGo (seen : List String) : List FlatTool → List FlatTool
  | [] => []
  | t :: ts =>
    if seen.contains t.tool.id then dedupByIdGo seen ts
    else t :: dedupByIdGo (seen ++ [t.tool.id]) ts

/-- Claim wording: "the pattern's priority ids resolved in order,
deduplicated, padded with same-category tools in descending ease order up to
6 tools". -/
def specRelevantTools (flat : List FlatTool) (p : IntentPattern) : List FlatTool :=
  let base := dedupByIdGo [] (p.priority.filterMap (fun pid => flat.find? (fun t => t.tool.id == pid)))
  let rest := sortByKeyDesc (fun t => easeKey t.tool)
    (flat.filter (fun t => t.categoryKey == p.category && !(base.map (·.tool.id)).contains t.tool.id))
  base ++ rest.take (6 - base.length)

/-- Claim wording: "+5 per query word of length ≥ 3 found in its searchable
text and +15 per query word found in its name" (the length-3 gate applies to
both bonuses, as in the source's single `continue`). -/
def specToolScore (query : String) (t : FlatTool) : Nat :=
  let qw := (jsWords (jsLower query)).filter (fun w => 3 ≤ w.length)
  5 * qw.countP (jsIncludes t.searchText)
    + 15 * qw.countP (jsIncludes (jsLower t.tool.name))

/-- Claim wording of the keyword fallback: top six scorers, confidence 0.3,
category "mixed"; if no tool scores above zero: `matched=false`, no tools,
confidence 0. -/
def specKeywordFallback (flat : List FlatTool) (query : String) : IntentResult :=
  let ranked := (sortByKeyDesc (specToolScore query)
      (flat.filter (fun t => 0 < specToolScore query t))).take 6
  if 0 < ranked.length then
    { matched := true
      category := some "mixed"
      context := "The user is looking for: \"" ++ query ++ "\". Found tools by keyword match."
      confidence := 3/10
      tools := ranked }
  else
    { matched := false
      category := none
      context := "Could not determine specific tool needs from the message."
      confidence := 0
      tools := [] }

/-- The §4.1 step 2–3 algorithm as the claim states it: the highest-scoring
pattern wins with ties keeping the first pattern in table order; best score
≥ 5 accepts with `confidence = min(score/20, 1)`; otherwise the keyword
fallback runs. -/
def specAnalyzeIntent (c : Catalog) (userMessage : String) : IntentResult :=
  let query := jsTrim (jsLower userMessage)
  let flat := flattenTools c
  let words := jsWords query
  let best := (intentMap.map (specPatternScore query words)).foldl max 0
  if 5 ≤ best then
    match intentMap.find? (fun p => specPatternScore query words p == best) with
    | some p =>
      { matched := true
        category := some p.category
        context := p.context
        confidence := min ((best : ℚ) / 20) 1
        tools := specRelevantTools flat p }
    | none => specKeywordFallback flat query
  else specKeywordFallback flat query

/-! ## Recommendation engine (`services/recommendation.js`, class
`RecommendationEngine`)

The engine's AI calls are external; the functions embedded here are the pure
result-producing paths the claims are about. `this.tools` is the `Catalog`
parameter `c`. -/

/-- A tool as returned by the recommendation endpoints: the tool spread plus
the category display name and icon. -/
structure RecTool where
  tool : Tool
  category : String
  categoryIcon : String
deriving DecidableEq, Repr

/-- A recommendation response (`success`, `source`, `category`, `reasoning`,
`tools`). -/
structure RecResult where
  success : Bool
  source : String
  category : String
  reasoning : String
  tools : List RecTool
deriving DecidableEq, Repr

/-- `findToolById(toolId)`: first match across categories, spread with the
category name and icon. -/
def findToolById (c : Catalog) (toolId : String) : Option RecTool :=
  (c.categories.filterMap (fun kc =>
      (kc.2.tools.find? (fun t => t.id == toolId)).map (fun t =>
        ({ tool := t, category := kc.2.name, categoryIcon := kc.2.icon } : RecTool)))).head?

/-- `getToolsByIds(toolIds, budgetType)`: resolve each id, skipping unknown
ids and (for a free budget) paid tools. -/
def getToolsByIds (c : Catalog) (toolIds : List String) (budgetType : String) :
    List RecTool :=
  toolIds.filterMap fun toolId =>
    match findToolById c toolId with
    | none => none
    | some t =>
      if budgetType == "free" && !t.tool.pricing.free then none else some t

/-- The `extractKeyIntent(query)` keyword table, in source order. -/
def keyIntentTable : List (String × String) :=
  [("website", "building a website"), ("web", "building a website"),
   ("app", "building applications"), ("image", "working with images"),
   ("video", "video creation"), ("code", "coding and development"),
   ("write", "writing and content"), ("design", "design and graphics"),
   ("graphic", "design and graphics"), ("logo", "logo and branding"),
   ("present", "creating presentations"), ("music", "audio and music"),
   ("voice", "voice and audio"), ("research", "research and learning"),
   ("automate", "automation"), ("build", "building your project"),
   ("create", "creating your project"), ("edit", "editing content"),
   ("startup", "your startup project")]

/-- `extractKeyIntent(query)`: first table keyword contained in the query. -/
def extractKeyIntent (query : String) : String :=
  match keyIntentTable.find? (fun kv => jsIncludes query kv.1) with
  | some kv => kv.2
  | none => "your project"

/-- The budget filter used by `getToolsFromCategory` and
`getFallbackRecommendation`: for a free budget keep only `pricing.free`. -/
def budgetKeep (budgetType : String) (t : Tool) : Bool :=
  if budgetType == "free" then t.pricing.free else true

/-- Spread a category's tool into a `RecTool`. -/
def mkRecTool (cat : Category) (t : Tool) : RecTool :=
  { tool := t, category := cat.name, categoryIcon := cat.icon }

/-- The category-score loop of `getFallbackRecommendation`: `+10` per category
keyword contained in the query, `+3` per (keyword, query word) pair where one
contains the other, `+15` per tool name contained in the query, `+5` per tool
`bestFor` contained in the query. -/
def categoryScore (query : String) (words : List String) (cat : Category) : Nat :=
  let s1 := cat.keywords.foldl
    (fun s kw =>
      words.foldl
        (fun a w =>
          a + (if jsIncludes (jsLower kw) w || jsIncludes w (jsLower kw) then 3 else 0))
        (s + (if jsIncludes query (jsLower kw) then 10 else 0)))
    0
  cat.tools.foldl
    (fun s t =>
      (s + (if jsIncludes query (jsLower t.name) then 15 else 0))
        + (if jsIncludes query (jsLower t.bestFor) then 5 else 0))
    s1

/-- `getDefaultRecommendation(budgetType)`: the fixed general-purpose set,
budget-filtered. -/
def getDefaultRecommendation (c : Catalog) (budgetType : String) : RecResult :=
  let generalTools :=
    ([findToolById c "chatgpt", findToolById c "perplexity", findToolById c "canva"].filterMap id).filter
      (fun t => !(budgetType == "free") || t.tool.pricing.free)
  { success := true
    source := "default"
    category := "General AI"
    reasoning := "Here are versatile AI tools that can help with many tasks."
    tools := generalTools.take 3 }

/-- `getFallbackRecommendation(userQuery, budgetType)`: score every category,
keep positive scorers in catalog order, sort them by descending score
(stable), take the best category's tools budget-filtered, ease-sorted,
capped at three; fall back to the default set when nothing scores. -/
def getFallbackRecommendation (c : Catalog) (userQuery : String) (budgetType : String) :
    RecResult :=
  let query := jsLower userQuery
  let words := jsWords query
  let positives := c.categories.filterMap fun kc =>
    let s := categoryScore query words kc.2
    if 0 < s then some (kc.1, s, kc.2) else none
  match (sortByKeyDesc (fun x => x.2.1) positives).head? with
  | none => getDefaultRecommendation c budgetType
  | some best =>
    let category := best.2.2
    let matchedTools := sortByKeyDesc easeKey (category.tools.filter (budgetKeep budgetType))
    { success := true
      source := "fallback"
      category := category.name
      reasoning := "Based on your query about \"" ++ extractKeyIntent query ++
        "\", these tools are best suited for your needs."
      tools := (matchedTools.take 3).map (mkRecTool category) }

/-- `getToolsFromCategory(categoryKey, budgetType, userQuery)`: budget-filter
and ease-sort the category's tools, cap at three; an unknown key falls back
to `getFallbackRecommendation`. -/
def getToolsFromCategory (c : Catalog) (categoryKey : String) (budgetType : String)
    (userQuery : String) : RecResult :=
  match lookupCat c.categories categoryKey with
  | none => getFallbackRecommendation c userQuery budgetType
  | some category =>
    let matchedTools := sortByKeyDesc easeKey (category.tools.filter (budgetKeep budgetType))
    { success := true
      source := "ai_category"
      category := category.name
      reasoning := "Here are the best " ++ budgetType ++ " tools for " ++
        extractKeyIntent (jsLower userQuery) ++ ":"
      tools := (matchedTools.take 3).map (mkRecTool category) }

/-- The parsed strict-JSON object returned by the Gemini recommendation
prompt. -/
structure GeminiParsed where
  category : String
  tools : List String
  reasoning : String
deriving DecidableEq, Repr

/-- `enrichRecommendations(geminiResponse, budgetType)`: walk the catalog in
order, keep tools whose id the AI named, skip paid tools on a free budget,
cap at three. -/
def enrichRecommendations (c : Catalog) (g : GeminiParsed) (budgetType : String) :
    RecResult :=
  let recommendations := c.categories.flatMap fun kc =>
    (kc.2.tools.filter (fun t =>
        g.tools.contains t.id && !(budgetType == "free" && !t.pricing.free))).map
      (mkRecTool kc.2)
  { success := true
    source := "gemini"
    category := g.category
    reasoning := g.reasoning
    tools := recommendations.take 3 }

/-! ### Specification-side formulation of the non-AI fallback (claim C4,
amended)

Same category-scoring function, but the winner phrased as "the first category
in catalog order attaining the maximum score", and the tool list phrased
directly as filter-sort-truncate. -/

/-- Maximum category score over the catalog. -/
def specFallbackMax (c : Catalog) (query : String) (words : List String) : Nat :=
  (c.categories.map (fun kc => categoryScore query words kc.2)).foldl max 0

/-- The non-AI fallback as described by the amended claim C4. -/
def specFallbackRecommendation (c : Catalog) (userQuery : String) (budgetType : String) :
    RecResult :=
  let query := jsLower userQuery
  let words := jsWords query
  let best := specFallbackMax c query words
  if 0 < best then
    match c.categories.find? (fun kc => categoryScore query words kc.2 == best) with
    | some kc =>
      { success := true
        source := "fallback"
        category := kc.2.name
        reasoning := "Based on your query about \"" ++ extractKeyIntent query ++
          "\", these tools are best suited for your needs."
        tools := ((sortByKeyDesc easeKey (kc.2.tools.filter (budgetKeep budgetType))).take 3).map
          (mkRecTool kc.2) }
    | none => getDefaultRecommendation c budgetType
  else getDefaultRecommendation c budgetType

/-! ## Legacy conversation engine (the `RecommendationEngine` bundled with the
server file; its `getGroqResponse` implements the budget short-circuits)

Only the pre-AI decision logic of `getGroqResponse` is deterministic; the
tail that actually calls the completion capability is modelled as the
`consultAI` outcome. -/

/-- One turn of the client-carried conversation history. -/
structure Msg where
  role : String
  content : String
deriving DecidableEq, Repr

/-- The deterministic outcome of the legacy `getGroqResponse` before any
model call: a standalone-budget short-circuit, a direct
budget-plus-tool-request short-circuit (both returned as JS
`{type: 'direct_recommendation', budget, originalQuery}`), or delegation to
the AI strategy. -/
inductive ChatDecision where
  | direct (budget : String) (originalQuery : String)
  | directToolRequest (budget : String) (originalQuery : String)
  | consultAI
deriving DecidableEq, Repr

/-- An apostrophe character, for phrase literals that contain one. -/
def apos : String := (Char.ofNat 39).toString

namespace Legacy

/-- Exact alternatives of `/^(free|free tools?|premium|paid|pro)$/i`. -/
def standaloneExact : List String :=
  ["free", "free tool", "free tools", "premium", "paid", "pro"]

/-- The optional leading phrases of the second standalone-budget regex
(including the empty alternative of the `?` quantifier). -/
def leadPhrases : List String :=
  ["", "i want", "i prefer", "i" ++ apos ++ "ll go with", "go with", "show me", "give me"]

/-- Strip `p` from the front of `s`, if it is a prefix. -/
def dropExact : List Char → List Char → Option (List Char)
  | [], s => some s
  | _ :: _, [] => none
  | p :: ps, c :: cs => if p == c then dropExact ps cs else none

/-- Match the `(\s+tools?)?$` tail: at least one whitespace then `tool` or
`tools`, ending the string. -/
def matchToolsSuffix (rest : List Char) : Bool :=
  let ws := rest.takeWhile Char.isWhitespace
  let tl := rest.dropWhile Char.isWhitespace
  !ws.isEmpty && (tl == "tool".data || tl == "tools".data)

/-- Match `(free|premium|paid)(\s+tools?)?$` against `r`. -/
def matchBudgetTail (r : List Char) : Bool :=
  ["free", "premium", "paid"].any fun b =>
    match dropExact b.data r with
    | none => false
    | some rest => rest.isEmpty || matchToolsSuffix rest

/-- Match
`/^(i want|i prefer|i'll go with|go with|show me|give me)?\s*(free|premium|paid)(\s+tools?)?$/i`
against a lowercased string. -/
def standaloneLoose (s : List Char) : Bool :=
  leadPhrases.any fun lead =>
    match dropExact lead.data s with
    | none => false
    | some r1 => matchBudgetTail (r1.dropWhile Char.isWhitespace)

/-- `isStandaloneBudgetAnswer`: either regex matches the lowercased trimmed
message. -/
def isStandaloneBudgetAnswer (lowerMessage : String) : Bool :=
  standaloneExact.contains lowerMessage || standaloneLoose lowerMessage.data

/-- JS `\w`: ASCII letters, digits and underscore. -/
def isWordChar (c : Char) : Bool :=
  (Char.ofNat 97 ≤ c && c ≤ Char.ofNat 122) || (Char.ofNat 65 ≤ c && c ≤ Char.ofNat 90)
    || (Char.ofNat 48 ≤ c && c ≤ Char.ofNat 57) || c == Char.ofNat 95

/-- A `\b` boundary next to a word character: string edge or a non-word
character. -/
def boundaryOk (c : Option Char) : Bool :=
  match c with
  | none => true
  | some c => !isWordChar c

/-- Match `\b alt \b` at the current position (all alternatives used below
start and end with word characters). -/
def bMatchAt (alt : List Char) (prev : Option Char) (s : List Char) : Bool :=
  boundaryOk prev &&
    (match dropExact alt s with
     | none => false
     | some rest => boundaryOk rest.head?)

/-- Search `\b alt \b` anywhere in the string. -/
def bSearch (alt : List Char) : Option Char → List Char → Bool
  | prev, [] => bMatchAt alt prev []
  | prev, c :: rest => bMatchAt alt prev (c :: rest) || bSearch alt (some c) rest

/-- `/\b(a1|a2|…)\b/i.test(message)`: test on the lowercased message. -/
def bTest (alts : List String) (message : String) : Bool :=
  alts.any fun a => bSearch a.data none (jsLower message).data

/-- Alternatives of the `wantsFree` regex. -/
def freeAlts : List String :=
  ["free", "no cost", "without paying", "don" ++ apos ++ "t want to pay",
   "i need free", "want free"]

/-- Alternatives of the `wantsPremium` regex. -/
def premiumAlts : List String :=
  ["premium", "paid", "pro", "professional", "best quality", "money", "budget",
   "willing to pay"]

/-- Alternatives of the `isToolRequest` regex. -/
def toolRequestAlts : List String :=
  ["tool", "app", "software", "recommend", "suggest", "find", "need", "want to",
   "help me", "looking for", "create", "build", "make", "design", "edit", "generate"]

/-- The deterministic decision prefix of the legacy `getGroqResponse(message,
history)`: the standalone-budget short-circuit (when the most recent
assistant turn asked the budget question), then the explicit
budget-plus-tool-request short-circuit, otherwise delegation to the model. -/
def getGroqResponse (message : String) (history : List Msg) : ChatDecision :=
  let lowerMessage := jsTrim (jsLower message)
  let lastAssistant := (history.filter (fun m => m.role == "assistant")).getLast?
  let askedBudget :=
    match lastAssistant with
    | some m => jsIncludes (jsLower m.content) "free" && jsIncludes (jsLower m.content) "premium"
    | none => false
  if isStandaloneBudgetAnswer lowerMessage && 0 < history.length && askedBudget then
    let budget := if jsIncludes lowerMessage "free" then "free" else "premium"
    let userMessages := history.filter (fun m => m.role == "user")
    let originalQuery :=
      match userMessages.getLast? with
      | some m => m.content
      | none => message
    .direct budget originalQuery
  else
    let wantsFree := bTest freeAlts message
    let wantsPremium := bTest premiumAlts message
    let isToolRequest := bTest toolRequestAlts message
    if (wantsFree || wantsPremium) && isToolRequest then
      .directToolRequest (if wantsFree then "free" else "premium") message
    else .consultAI

end Legacy

/-! ## Discovery pipeline (`services/scraper.js`, class `ToolScraper`)

External effects are parameters: the page fetch is an `Option RawData`
(`none` models a failed `analyzeToolUrl`), the classification capability is
an `AIOutcome`, and the process clock readings are the `today` / `now`
strings.  The persisted documents `tools.json` and `discovered.json` are the
`ScraperState`. -/

/-- The structured hints extracted by `analyzeToolUrl` (the `name` field only
exists for directory-scraped candidates and is omitted from the URL path, as
in the JS object). -/
structure RawData where
  name : Option String := none
  url : String
  title : String
  description : String
  headline : String
  subheadlines : List String
  pricingHints : String
  rawSnippet : String
deriving DecidableEq, Repr

/-- A structured catalog entry as produced by the classification capability
or `basicCategorize`. -/
structure CatEntry where
  isAITool : Bool
  id : String
  name : String
  bestFor : String
  category : String
  deploy : DeployInfo
  limits : String
  pricing : Pricing
  whySuitsYou : String
  ease : Nat
  url : String
  acceptsPrompt : Bool
  promptHint : Option String := none
deriving DecidableEq, Repr

/-- One append-only discovery log record. -/
structure DiscoveryRecord where
  id : String
  name : String
  category : String
  discoveredAt : String
  url : String
deriving DecidableEq, Repr

/-- The parsed `discovered.json` document. -/
structure DiscoveredLog where
  tools : List DiscoveryRecord
  lastScrape : Option String
  totalDiscovered : Nat
deriving DecidableEq, Repr

/-- The two persisted documents the scraper reads and writes. -/
structure ScraperState where
  db : Catalog
  log : DiscoveredLog
deriving DecidableEq, Repr

/-- One classification-capability call outcome: no configured key, a thrown /
malformed call, or a parsed structured entry. -/
inductive AIOutcome where
  | unavailable
  | failure
  | success (entry : CatEntry)
deriving DecidableEq, Repr

/-- The result object of `discoverToolByUrl`. -/
structure DiscoverResult where
  success : Bool
  error : Option String := none
  name : Option String := none
  tool : Option CatEntry := none
deriving DecidableEq, Repr

/-- `getExistingToolIds()`: every tool id and lowercased tool name across the
catalog (the JS `Set` is modelled as a list queried with `contains`). -/
def getExistingToolIds (db : Catalog) : List String :=
  db.categories.flatMap fun kc =>
    kc.2.tools.flatMap fun t => [t.id, jsLower t.name]

/-- Escape a string for `JSON.stringify` (quote and backslash; the inputs of
interest contain no control characters). -/
def jsonEscape (s : String) : String :=
  ⟨s.data.flatMap fun c => if c == '"' || c == '\\' then ['\\', c] else [c]⟩

/-- A JSON string literal. -/
def jsonStr (s : String) : String := "\"" ++ jsonEscape s ++ "\""

/-- `JSON.stringify(toolData)` for a `RawData` value (fields in object order;
an absent `name` is omitted, as `JSON.stringify` omits `undefined`). -/
def jsonStringifyRaw (td : RawData) : String :=
  "\x7b" ++
  (match td.name with
   | some n => jsonStr "name" ++ ":" ++ jsonStr n ++ ","
   | none => "") ++
  jsonStr "url" ++ ":" ++ jsonStr td.url ++ "," ++
  jsonStr "title" ++ ":" ++ jsonStr td.title ++ "," ++
  jsonStr "description" ++ ":" ++ jsonStr td.description ++ "," ++
  jsonStr "headline" ++ ":" ++ jsonStr td.headline ++ "," ++
  jsonStr "subheadlines" ++ ":[" ++
    String.intercalate "," (td.subheadlines.map jsonStr) ++ "]," ++
  jsonStr "pricingHints" ++ ":" ++ jsonStr td.pricingHints ++ "," ++
  jsonStr "rawSnippet" ++ ":" ++ jsonStr td.rawSnippet ++
  "\x7d"

/-- The fixed keyword table of `basicCategorize`, in source order. -/
def categoryKeywordTable : List (String × List String) :=
  [("app_building", ["app", "website", "build", "deploy", "full-stack", "no-code"]),
   ("image_generation", ["image", "picture", "generate", "art", "illustration"]),
   ("image_editing", ["edit", "photo", "retouch", "background", "enhance"]),
   ("video_creation", ["video", "animation", "clip", "movie", "reel"]),
   ("coding_assistance", ["code", "programming", "developer", "ide", "debug"]),
   ("writing", ["write", "content", "blog", "article", "copy"]),
   ("design", ["design", "graphic", "logo", "ui", "template"]),
   ("presentation", ["presentation", "slide", "deck", "pitch"]),
   ("audio", ["audio", "music", "voice", "sound", "speech"])]

/-- `.replace(/[^a-z0-9]/g, '_')` on an already-lowercased string. -/
def sanitizeId (s : String) : String :=
  ⟨s.data.map fun c =>
    if (Char.ofNat 97 ≤ c && c ≤ Char.ofNat 122) || (Char.ofNat 48 ≤ c && c ≤ Char.ofNat 57)
    then c else '_'⟩

/-- Worker for `squeezeUnderscore`: `prevU` records whether the previous kept
character was an underscore. -/
def squeezeAux : Bool → List Char → List Char
  | _, [] => []
  | prevU, c :: rest =>
    if c == '_' then
      if prevU then squeezeAux true rest
      else '_' :: squeezeAux true rest
    else c :: squeezeAux false rest

/-- `.replace(/_+/g, '_')`: collapse runs of underscores. -/
def squeezeUnderscore (l : List Char) : List Char := squeezeAux false l

/-- `basicCategorize(toolData)`: deterministic keyword-scoring fallback,
always accepting the candidate (`isAITool: true`) with conservative defaults
(`free: true`, `ease: 3`). -/
def basicCategorize (td : RawData) : CatEntry :=
  let text := jsLower (jsonStringifyRaw td)
  let best := categoryKeywordTable.foldl
    (fun (b : String × Nat) ck =>
      let score := ck.2.foldl (fun s kw => if jsIncludes text kw then s + 1 else s) 0
      if b.2 < score then (ck.1, score) else b)
    ("coding_assistance", 0)
  { isAITool := true
    id := squeezeUnderscore (sanitizeId (jsLower (optOr td.name "unknown"))).data |> (⟨·⟩)
    name := optOr td.name (strOr td.title "Unknown Tool")
    bestFor := strOr td.description "AI tool"
    category := best.1
    deploy := { available := false, deployType := "N/A", note := "Check website" }
    limits := "Check website for free tier details"
    pricing := { free := true, premium := none }
    whySuitsYou := strOr td.description "An AI tool that might help with your project"
    ease := 3
    url := strOr td.url "#"
    acceptsPrompt := false }

/-- `categorizeWithAI(toolData)` with the capability outcome explicit: no key
or a thrown call fall back to `basicCategorize`; a parsed response is
rejected (`null`) exactly when it says `isAITool: false`. -/
def categorizeWithAI (ai : AIOutcome) (td : RawData) : Option CatEntry :=
  match ai with
  | .unavailable => some (basicCategorize td)
  | .failure => some (basicCategorize td)
  | .success entry => if entry.isAITool then some entry else none

/-- Replace the value at the first occurrence of `key` (JSON object keys are
unique, so this matches the JS in-place mutation). -/
def setCat : List (String × Category) → String → Category → List (String × Category)
  | [], _, _ => []
  | kc :: rest, key, v =>
    if kc.1 == key then (kc.1, v) :: rest else kc :: setCat rest key v

/-- The cleaned persisted tool entry built by `addToolToDatabase`. -/
def toToolEntry (tool : CatEntry) : Tool :=
  { id := tool.id
    name := tool.name
    bestFor := tool.bestFor
    deploy := some tool.deploy
    limits := some tool.limits
    pricing := tool.pricing
    whySuitsYou := some tool.whySuitsYou
    ease := some tool.ease
    url := tool.url
    acceptsPrompt := tool.acceptsPrompt
    promptHint :=
      if tool.acceptsPrompt then some (optOr tool.promptHint "Describe what you want to create")
      else none }

/-- The total tool count recomputed on every write:
`Object.values(data.categories).reduce((sum, cat) => sum + cat.tools.length, 0)`. -/
def totalToolCount (c : Catalog) : Nat :=
  c.categories.foldl (fun s kc => s + kc.2.tools.length) 0

/-- `addToolToDatabase(tool)`: reject an unknown category or a duplicate id
within the target category (returning `false`, i.e. `none`); otherwise append
the cleaned entry, recompute `metadata.totalTools`, stamp `lastUpdated` and
persist the whole document (`some` of the new catalog). -/
def addToolToDatabase (today : String) (db : Catalog) (tool : CatEntry) :
    Option Catalog :=
  match lookupCat db.categories tool.category with
  | none => none
  | some cat =>
    if (cat.tools.find? (fun t => t.id == tool.id)).isSome then none
    else
      let cats2 := setCat db.categories tool.category
        { cat with tools := cat.tools ++ [toToolEntry tool] }
      some { categories := cats2
             metadata := { totalTools := totalToolCount ⟨cats2, db.metadata⟩
                           lastUpdated := today } }

/-- `logDiscovery(tool)`: append a record, stamp `lastScrape`, recount
`totalDiscovered`. -/
def logDiscovery (now : String) (log : DiscoveredLog) (tool : CatEntry) : DiscoveredLog :=
  let tools2 := log.tools ++
    [{ id := tool.id, name := tool.name, category := tool.category,
       discoveredAt := now, url := tool.url }]
  { tools := tools2, lastScrape := some now, totalDiscovered := tools2.length }

/-- `(rawData.title || '').toLowerCase().split(/[-–|]/)[0].trim()`. -/
def titleToolName (title : String) : String :=
  jsTrim ⟨(jsLower title).data.takeWhile fun ch =>
    !(ch == '-' || ch == Char.ofNat 0x2013 || ch == '|')⟩

/-- `discoverToolByUrl(url)` with the fetch and classification outcomes
explicit: dedup against existing ids/names by the title-derived name, then
classify, then commit and log. Every failing path leaves both persisted
documents untouched. -/
def discoverToolByUrl (today now : String) (fetch : Option RawData) (ai : AIOutcome)
    (st : ScraperState) : DiscoverResult × ScraperState :=
  let existingIds := getExistingToolIds st.db
  match fetch with
  | none => ({ success := false, error := some "Could not access the website" }, st)
  | some rawData =>
    let toolName := titleToolName rawData.title
    if existingIds.contains toolName then
      ({ success := false, error := some "Tool already exists in database",
         name := some toolName }, st)
    else
      match categorizeWithAI ai rawData with
      | none => ({ success := false, error := some "Not identified as an AI tool" }, st)
      | some categorized =>
        match addToolToDatabase today st.db categorized with
        | some db2 =>
          ({ success := true, tool := some categorized },
           { db := db2, log := logDiscovery now st.log categorized })
        | none => ({ success := false, error := some "Failed to add to database" }, st)

/-! ## Concrete fixtures

Small catalogs, histories and discovery inputs used to instantiate the claim
theorems on explicit data. The catalog contents are runtime data
(`tools.json` is not part of the embedded sources), so any well-formed
catalog is a legitimate test input. -/

def lovableTool : Tool :=
  { id := "lovable", name := "Lovable", bestFor := "building full web apps"
    pricing := { free := true, premium := some "$20/month" }
    ease := some 5, url := "https://lovable.dev" }

def lookaTool : Tool :=
  { id := "looka", name := "Looka", bestFor := "logo design"
    pricing := { free := false, premium := some "$20 one-time" }
    ease := some 4, url := "https://looka.com" }

def canvaDesignTool : Tool :=
  { id := "canva_design", name := "Canva", bestFor := "quick social graphics"
    pricing := { free := true, premium := some "$12.99/month" }
    ease := some 5, url := "https://canva.com" }

/-- A small catalog with a design and an app-building category. -/
def sampleCatalog : Catalog :=
  { categories :=
      [("design",
        { name := "Design & Graphics", icon := "d", keywords := ["logo", "design"]
          tools := [lookaTool, canvaDesignTool] }),
       ("app_building",
        { name := "App Building", icon := "a", keywords := ["website"]
          tools := [lovableTool] })]
    metadata := { totalTools := 3, lastUpdated := "2026-01-01" } }

/-- A catalog with no categories at all. -/
def emptyCatalog : Catalog :=
  { categories := [], metadata := { totalTools := 0, lastUpdated := "2026-01-01" } }

/-- A single-category catalog whose keywords do not mention "mvp". -/
def c4cat : Catalog :=
  { categories :=
      [("app_building",
        { name := "App Building", icon := "a", keywords := ["website"]
          tools := [lovableTool] })]
    metadata := { totalTools := 1, lastUpdated := "2026-01-01" } }

/-- History for the C5 counterexample: a user turn follows the assistant's
budget question. -/
def c5history : List Msg :=
  [{ role := "user", content := "i want a logo" },
   { role := "assistant", content := "Would you prefer free tools or premium options?" },
   { role := "user", content := "tell me a joke" }]

/-- History for the C5 witness: the budget question is the final turn. -/
def c5history2 : List Msg :=
  [{ role := "user", content := "i want to build a website" },
   { role := "assistant", content := "Would you prefer free tools or premium options?" }]

def fooTool : Tool :=
  { id := "foo", name := "Foo", bestFor := "foo things"
    pricing := { free := true, premium := none }
    ease := some 3, url := "https://foo.com" }

/-- Catalog with tool id "foo" in `design` and an empty `writing` bucket. -/
def c7db : Catalog :=
  { categories :=
      [("design",
        { name := "Design", icon := "d", keywords := [], tools := [fooTool] }),
       ("writing",
        { name := "Writing", icon := "w", keywords := [], tools := [] })]
    metadata := { totalTools := 1, lastUpdated := "2026-01-01" } }

/-- A classifier-produced entry whose id collides with a tool of a different
category. -/
def e7 : CatEntry :=
  { isAITool := true, id := "foo", name := "Foo Writer", bestFor := "writing"
    category := "writing"
    deploy := { available := false, deployType := "N/A", note := "Check website" }
    limits := "limited", pricing := { free := true, premium := none }
    whySuitsYou := "writes", ease := 3, url := "https://foowriter.com"
    acceptsPrompt := false }

/-- Every tool id in the catalog, in catalog order. -/
def catalogIds (db : Catalog) : List String :=
  db.categories.flatMap fun kc => kc.2.tools.map (fun t => t.id)

/-- The catalog `c7db` after committing `e7`. -/
def c7dbAfter : Catalog :=
  { categories :=
      [("design",
        { name := "Design", icon := "d", keywords := [], tools := [fooTool] }),
       ("writing",
        { name := "Writing", icon := "w", keywords := [], tools := [toToolEntry e7] })]
    metadata := { totalTools := 2, lastUpdated := "2026-03-03" } }

/-- An empty discovery log. -/
def emptyLog : DiscoveredLog := { tools := [], lastScrape := none, totalDiscovered := 0 }

/-- Scraper state for the discovery fixtures: one empty design category. -/
def scrapeSt : ScraperState :=
  { db :=
      { categories :=
          [("design", { name := "Design", icon := "d", keywords := [], tools := [] })]
        metadata := { totalTools := 0, lastUpdated := "2026-01-01" } }
    log := emptyLog }

def rawAcme : RawData :=
  { url := "https://acme.com", title := "Acme AI Logo Maker"
    description := "Generates logos", headline := "Acme", subheadlines := []
    pricingHints := "", rawSnippet := "" }

def acmeEntry : CatEntry :=
  { isAITool := true, id := "acme_ai", name := "Acme AI", bestFor := "logos"
    category := "design"
    deploy := { available := false, deployType := "N/A", note := "Check website" }
    limits := "limited", pricing := { free := true, premium := none }
    whySuitsYou := "fast logos", ease := 4, url := "https://acme.com"
    acceptsPrompt := false }

/-- A second classifier response for the same page, with a fresh id. -/
def acmeEntry2 : CatEntry := { acmeEntry with id := "acme_pro", name := "Acme Pro" }

/-- A classifier response that rejects the candidate. -/
def notAIEntry : CatEntry := { acmeEntry with isAITool := false }

/-- The scraper state after the first successful discovery of `rawAcme`. -/
def scrapeSt1 : ScraperState :=
  { db :=
      { categories :=
          [("design",
            { name := "Design", icon := "d", keywords := []
              tools := [toToolEntry acmeEntry] })]
        metadata := { totalTools := 1, lastUpdated := "d1" } }
    log :=
      { tools := [{ id := "acme_ai", name := "Acme AI", category := "design",
                    discoveredAt := "t1", url := "https://acme.com" }]
        lastScrape := some "t1", totalDiscovered := 1 } }

/-! ## Lemmas: accumulation loops as weighted counts -/

theorem foldl_add_bonus (k : Nat) (p : α → Bool) (l : List α) (n : Nat) :
    l.foldl (fun a x => a + (if p x then k else 0)) n = n + k * l.countP p := by
  induction l generalizing n with
  | nil => simp
  | cons x xs ih =>
    by_cases h : p x
    · simp only [List.foldl_cons, ih, List.countP_cons, h, if_true, reduceIte]
      ring
    · simp only [List.foldl_cons, ih, List.countP_cons, h, Bool.false_eq_true, reduceIte]
      ring

theorem patternScore_aux (query : String) (words : List String) (l : List String)
    (n : Nat) :
    l.foldl
        (fun acc intent =>
          (splitSpace intent).foldl
            (fun a iw => a + (if words.contains iw then 5 else 0))
            (acc + (if jsIncludes query intent then 20 else 0)))
        n
      = n + 20 * l.countP (jsIncludes query)
          + 5 * (l.flatMap splitSpace).countP words.contains := by
  induction l generalizing n with
  | nil => simp
  | cons intent rest ih =>
    rw [List.foldl_cons, ih, foldl_add_bonus, List.countP_cons, List.flatMap_cons,
      List.countP_append]
    by_cases h : jsIncludes query intent <;>
      simp only [h, if_true, if_false, Bool.false_eq_true, reduceIte] <;> omega

/-- The source's pattern-scoring loop computes the weighted counts stated by
the spec. -/
theorem patternScore_eq_spec (query : String) (words : List String) (p : IntentPattern) :
    patternScore query words p = specPatternScore query words p := by
  unfold patternScore specPatternScore
  rw [patternScore_aux]
  omega

theorem toolScore_aux (st nm : String) (l : List String) (n : Nat) :
    l.foldl
        (fun s w =>
          if w.length < 3 then s
          else (s + (if jsIncludes st w then 5 else 0))
                 + (if jsIncludes nm w then 15 else 0))
        n
      = n + 5 * (l.filter (fun w => 3 ≤ w.length)).countP (jsIncludes st)
          + 15 * (l.filter (fun w => 3 ≤ w.length)).countP (jsIncludes nm) := by
  induction l generalizing n with
  | nil => simp
  | cons w rest ih =>
    by_cases h3 : 3 ≤ w.length
    · have hlt : ¬ w.length < 3 := by omega
      rw [List.foldl_cons, if_neg hlt, ih]
      have hf : (w :: rest).filter (fun w => 3 ≤ w.length)
          = w :: rest.filter (fun w => 3 ≤ w.length) := by
        simp [List.filter_cons, h3]
      rw [hf, List.countP_cons, List.countP_cons]
      by_cases h1 : jsIncludes st w <;> by_cases h2 : jsIncludes nm w <;>
        simp only [h1, h2, if_true, if_false, Bool.false_eq_true, reduceIte] <;> ring
    · have hlt : w.length < 3 := by omega
      rw [List.foldl_cons, if_pos hlt, ih]
      have hf : (w :: rest).filter (fun w => 3 ≤ w.length)
          = rest.filter (fun w => 3 ≤ w.length) := by
        simp [List.filter_cons, h3]
      rw [hf]

/-- The source's keyword-search scoring loop computes the weighted counts
stated by the spec (the length-3 gate applying to both bonuses). -/
theorem toolScore_eq_spec (query : String) (t : FlatTool) :
    toolScore (jsWords (jsLower query)) t = specToolScore query t := by
  unfold toolScore specToolScore
  rw [toolScore_aux]
  dsimp only
  omega

/-! ## Lemmas: the strict-greater tracking fold is "first maximum" -/

theorem foldl_max_init_le (f : α → Nat) (l : List α) (s : Nat) :
    s ≤ l.foldl (fun m a => max m (f a)) s := by
  induction l generalizing s with
  | nil => simp
  | cons a l ih => exact Nat.le_trans (Nat.le_max_left _ _) (ih (max s (f a)))

theorem le_foldl_max_of_mem (f : α → Nat) {l : List α} {a : α} (h : a ∈ l) (s : Nat) :
    f a ≤ l.foldl (fun m b => max m (f b)) s := by
  induction l generalizing s with
  | nil => cases h
  | cons b l ih =>
    rcases List.mem_cons.mp h with rfl | h'
    · exact Nat.le_trans (Nat.le_max_right _ _) (foldl_max_init_le f l _)
    · exact ih h' _

theorem foldl_max_of_all_le (f : α → Nat) {l : List α} {s : Nat}
    (h : ∀ a ∈ l, f a ≤ s) : l.foldl (fun m a => max m (f a)) s = s := by
  induction l with
  | nil => rfl
  | cons a l ih =>
    rw [List.foldl_cons, Nat.max_eq_left (h a (List.mem_cons_self a l))]
    exact ih fun b hb => h b (List.mem_cons_of_mem a hb)

theorem foldl_max_attained (f : α → Nat) (l : List α) (s : Nat) :
    l.foldl (fun m a => max m (f a)) s = s
      ∨ ∃ a ∈ l, l.foldl (fun m a => max m (f a)) s = f a := by
  induction l generalizing s with
  | nil => left; rfl
  | cons a l ih =>
    rw [List.foldl_cons]
    rcases ih (max s (f a)) with h | ⟨b, hb, h⟩
    · rw [h]
      rcases max_choice s (f a) with h' | h'
      · left; rw [h']
      · right; exact ⟨a, List.mem_cons_self a l, h'⟩
    · right; exact ⟨b, List.mem_cons_of_mem a hb, h⟩

theorem runBest_snd (f : α → Nat) (l : List α) (st : Option α × Nat) :
    (runBest f l st).2 = l.foldl (fun m a => max m (f a)) st.2 := by
  induction l generalizing st with
  | nil => rfl
  | cons a l ih =>
    rw [runBest, List.foldl_cons, ih]
    by_cases h : st.2 < f a
    · rw [if_pos h, Nat.max_eq_right (Nat.le_of_lt h)]
    · rw [if_neg h, Nat.max_eq_left (Nat.le_of_not_lt h)]

theorem runBest_fst_of_all_le (f : α → Nat) {l : List α} {st : Option α × Nat}
    (h : ∀ a ∈ l, f a ≤ st.2) : (runBest f l st).1 = st.1 := by
  induction l generalizing st with
  | nil => rfl
  | cons a l ih =>
    rw [runBest, if_neg (Nat.not_lt.mpr (h a (List.mem_cons_self a l)))]
    exact ih fun b hb => h b (List.mem_cons_of_mem a hb)

/-- When some element strictly beats the initial score, the
`if (score > bestScore)` fold returns the first element attaining the
overall maximum. -/
theorem runBest_fst_eq_find (f : α → Nat) (l : List α) (st : Option α × Nat)
    (h : st.2 < l.foldl (fun m a => max m (f a)) st.2) :
    (runBest f l st).1
      = l.find? (fun a => f a == l.foldl (fun m b => max m (f b)) st.2) := by
  induction l generalizing st with
  | nil => simp at h
  | cons a l ih =>
    rw [runBest]
    by_cases ha : st.2 < f a
    · rw [if_pos ha]
      have hstep : (a :: l).foldl (fun m b => max m (f b)) st.2
          = l.foldl (fun m b => max m (f b)) (f a) := by
        rw [List.foldl_cons, Nat.max_eq_right (Nat.le_of_lt ha)]
      by_cases hall : ∀ b ∈ l, f b ≤ f a
      · have hM : (a :: l).foldl (fun m b => max m (f b)) st.2 = f a := by
          rw [hstep]; exact foldl_max_of_all_le f hall
        rw [@List.find?_cons_of_pos α
          (fun x => f x == (a :: l).foldl (fun m b => max m (f b)) st.2) a l
          (beq_of_eq hM.symm)]
        exact runBest_fst_of_all_le f (by simpa using hall)
      · push_neg at hall
        obtain ⟨b, hb, hba⟩ := hall
        have hM : f a < (a :: l).foldl (fun m b => max m (f b)) st.2 := by
          rw [hstep]
          exact Nat.lt_of_lt_of_le hba (le_foldl_max_of_mem f hb _)
        rw [@List.find?_cons_of_neg α
          (fun x => f x == (a :: l).foldl (fun m b => max m (f b)) st.2) a l
          (fun hc => Nat.ne_of_lt hM (eq_of_beq hc))]
        rw [hstep] at hM ⊢
        exact ih ((some a, f a)) hM
    · rw [if_neg ha]
      have hfa : f a ≤ st.2 := Nat.le_of_not_lt ha
      have hstep : (a :: l).foldl (fun m b => max m (f b)) st.2
          = l.foldl (fun m b => max m (f b)) st.2 := by
        rw [List.foldl_cons, Nat.max_eq_left hfa]
      have hlt : st.2 < l.foldl (fun m b => max m (f b)) st.2 := by rw [← hstep]; exact h
      have hne : f a ≠ (a :: l).foldl (fun m b => max m (f b)) st.2 := by
        rw [hstep]
        exact Nat.ne_of_lt (Nat.lt_of_le_of_lt hfa hlt)
      rw [@List.find?_cons_of_neg α
        (fun x => f x == (a :: l).foldl (fun m b => max m (f b)) st.2) a l
        (fun hc => hne (eq_of_beq hc))]
      rw [hstep]
      exact ih st hlt

/-! ## Lemmas: the stable descending sort -/

theorem mem_insertDesc (key : α → Nat) (a b : α) (l : List α) :
    b ∈ insertDesc key a l ↔ b = a ∨ b ∈ l := by
  induction l with
  | nil => simp [insertDesc]
  | cons c l ih =>
    rw [insertDesc]
    by_cases h : key a < key c
    · rw [if_pos h]
      simp only [List.mem_cons, ih]
      tauto
    · rw [if_neg h]
      simp only [List.mem_cons]

theorem mem_sortByKeyDesc (key : α → Nat) (b : α) (l : List α) :
    b ∈ sortByKeyDesc key l ↔ b ∈ l := by
  induction l with
  | nil => simp [sortByKeyDesc]
  | cons a l ih =>
    rw [sortByKeyDesc, List.foldr_cons, mem_insertDesc]
    rw [sortByKeyDesc] at ih
    rw [ih, List.mem_cons]

theorem foldl_max_shift (key : α → Nat) (l : List α) (s t : Nat) :
    l.foldl (fun m a => max m (key a)) (max s t)
      = max s (l.foldl (fun m a => max m (key a)) t) := by
  induction l generalizing t with
  | nil => rfl
  | cons a l ih => rw [List.foldl_cons, List.foldl_cons, Nat.max_assoc, ih]

theorem maxOf_cons (key : α → Nat) (a : α) (l : List α) :
    maxOf key (a :: l) = max (key a) (maxOf key l) := by
  unfold maxOf
  rw [List.foldl_cons, Nat.zero_max]
  have := foldl_max_shift key l (key a) 0
  rw [Nat.max_zero (key a)] at this
  exact this

theorem key_le_maxOf_of_mem (key : α → Nat) {l : List α} {a : α} (h : a ∈ l) :
    key a ≤ maxOf key l :=
  le_foldl_max_of_mem key h 0

/-- The head of the stable descending sort is the first element attaining the
maximum key. -/
theorem head?_sortByKeyDesc (key : α → Nat) (l : List α) :
    (sortByKeyDesc key l).head? = l.find? (fun a => key a == maxOf key l) := by
  induction l with
  | nil => rfl
  | cons a l ih =>
    rw [sortByKeyDesc, List.foldr_cons, List.find?, maxOf_cons]
    have hsort : l.foldr (insertDesc key) [] = sortByKeyDesc key l := rfl
    rw [hsort]
    by_cases hle : maxOf key l ≤ key a
    · rw [Nat.max_eq_left hle, beq_self_eq_true]
      cases hs : sortByKeyDesc key l with
      | nil => rw [insertDesc]; rfl
      | cons b bs =>
        have hbmem : b ∈ l := by
          rw [← mem_sortByKeyDesc key b l, hs]; exact List.mem_cons_self b bs
        have : ¬ key a < key b :=
          Nat.not_lt.mpr (Nat.le_trans (key_le_maxOf_of_mem key hbmem) hle)
        rw [insertDesc, if_neg this]
        rfl
    · have hlt : key a < maxOf key l := Nat.lt_of_not_le hle
      rw [Nat.max_eq_right (Nat.le_of_lt hlt)]
      rw [(by simp [Nat.ne_of_lt hlt] : (key a == maxOf key l) = false)]
      cases hs : sortByKeyDesc key l with
      | nil =>
        exfalso
        have : l = [] := by
          cases l with
          | nil => rfl
          | cons x xs =>
            exfalso
            have : x ∈ sortByKeyDesc key (x :: xs) :=
              (mem_sortByKeyDesc key x (x :: xs)).mpr (List.mem_cons_self x xs)
            rw [hs] at this
            cases this
        rw [this] at hlt
        exact Nat.not_lt_zero _ hlt
      | cons b bs =>
        have hfind : l.find? (fun x => key x == maxOf key l) = some b := by
          rw [← ih, hs]; rfl
        have hbkey : key b = maxOf key l := by
          have := List.find?_some hfind
          simpa using this
        have : key a < key b := by rw [hbkey]; exact hlt
        rw [insertDesc, if_pos this]
        rw [← ih, hs]
        rfl

/-! ## Lemmas: the tool-list construction of `getRelevantTools` -/

theorem padLoop_eq (l acc : List FlatTool) :
    padLoop acc l = acc ++ l.take (6 - acc.length) := by
  induction l generalizing acc with
  | nil => simp [padLoop]
  | cons t ts ih =>
    rw [padLoop]
    by_cases h : 6 ≤ acc.length
    · rw [if_pos h, (by omega : 6 - acc.length = 0)]
      simp
    · rw [if_neg h, ih]
      rw [(by omega : 6 - acc.length = (6 - (acc.length + 1)) + 1), List.take_succ_cons]
      simp [List.append_assoc]

theorem resolve_foldl_eq (flat : List FlatTool) (pids : List String)
    (acc : List FlatTool) (seen : List String) :
    pids.foldl (resolveStep flat) (acc, seen)
      = (acc ++ dedupByIdGo seen
            (pids.filterMap (fun pid => flat.find? (fun t => t.tool.id == pid))),
         seen ++ (dedupByIdGo seen
            (pids.filterMap (fun pid => flat.find? (fun t => t.tool.id == pid)))).map
              (fun t => t.tool.id)) := by
  induction pids generalizing acc seen with
  | nil => simp [dedupByIdGo]
  | cons pid rest ih =>
    rw [List.foldl_cons, List.filterMap_cons]
    cases hfind : flat.find? (fun t => t.tool.id == pid) with
    | none =>
      have hstep : resolveStep flat (acc, seen) pid = (acc, seen) := by
        simp [resolveStep, hfind]
      rw [hstep]
      exact ih acc seen
    | some t =>
      by_cases hseen : seen.contains t.tool.id
      · have hseen' : t.tool.id ∈ seen := by simpa using hseen
        have hstep : resolveStep flat (acc, seen) pid = (acc, seen) := by
          simp [resolveStep, hfind, hseen']
        rw [hstep, dedupByIdGo, if_pos hseen]
        exact ih acc seen
      · have hseen' : t.tool.id ∉ seen := by simpa using hseen
        have hstep : resolveStep flat (acc, seen) pid = (acc ++ [t], seen ++ [t.tool.id]) := by
          simp [resolveStep, hfind, hseen']
        rw [hstep, dedupByIdGo, if_neg hseen, ih]
        simp [List.append_assoc]

/-- `getRelevantTools` builds exactly the claim's list: priority ids resolved
in order, deduplicated, padded with remaining same-category tools in stable
descending-ease order up to six tools. -/
theorem getRelevantTools_eq_spec (flat : List FlatTool) (p : IntentPattern) (q : String) :
    getRelevantTools flat p q = specRelevantTools flat p := by
  unfold getRelevantTools specRelevantTools
  rw [resolve_foldl_eq]
  simp only [List.nil_append]
  rw [padLoop_eq]

/-! ## Lemmas: the keyword fallback -/

theorem searchAllTools_eq_spec (flat : List FlatTool) (query : String) :
    searchAllTools flat query
      = (sortByKeyDesc (specToolScore query)
          (flat.filter (fun t => 0 < specToolScore query t))).take 6 := by
  unfold searchAllTools
  dsimp only
  rw [show toolScore (jsWords (jsLower query)) = specToolScore query from
    funext (toolScore_eq_spec query)]

theorem keywordFallback_eq_spec (flat : List FlatTool) (query : String) :
    keywordFallback flat query = specKeywordFallback flat query := by
  unfold keywordFallback specKeywordFallback
  rw [searchAllTools_eq_spec]
  dsimp only
  rw [List.take_take, Nat.min_self]

/-! ## The §4.1 step 2–3 equivalence -/

/-- On every query that does not trigger guidance detection, `analyzeIntent`
computes exactly the §4.1 step 2–3 algorithm as worded by the spec. -/
theorem analyzeIntent_eq_spec (c : Catalog) (q : String)
    (hg : detectToolGuidance (flattenTools c) (jsTrim (jsLower q)) = none) :
    analyzeIntent c q = specAnalyzeIntent c q := by
  unfold analyzeIntent specAnalyzeIntent
  dsimp only
  rw [hg]
  set query := jsTrim (jsLower q) with hquery
  set flat := flattenTools c with hflat
  set words := jsWords query with hwords
  have hfg : patternScore query words = specPatternScore query words :=
    funext (patternScore_eq_spec query words)
  set B := (intentMap.map (specPatternScore query words)).foldl max 0 with hBdef
  have hBfold : B = intentMap.foldl (fun m p => max m (specPatternScore query words p)) 0 := by
    rw [hBdef, List.foldl_map]
  have hBr : (runBest (patternScore query words) intentMap (none, 0)).2 = B := by
    rw [runBest_snd, hfg, hBfold]
  by_cases h5 : 5 ≤ B
  · have h0 : ((none : Option IntentPattern), 0).2
        < intentMap.foldl (fun m p => max m (patternScore query words p)) ((none, 0) : Option IntentPattern × Nat).2 := by
      rw [hfg]
      rw [← hBfold]
      omega
    have hfst := runBest_fst_eq_find (patternScore query words) intentMap (none, 0) h0
    dsimp only at hfst
    have hfind2 : intentMap.find?
        (fun a => patternScore query words a
          == intentMap.foldl (fun m b => max m (patternScore query words b)) 0)
        = intentMap.find? (fun x => specPatternScore query words x == B) := by
      rw [hfg, ← hBfold]
    have hex : ∃ p ∈ intentMap, (specPatternScore query words p == B) = true := by
      rcases foldl_max_attained (specPatternScore query words) intentMap 0 with
        hz | ⟨p0, hp0, hval⟩
      · exfalso
        rw [← hBfold] at hz
        omega
      · rw [← hBfold] at hval
        exact ⟨p0, hp0, beq_of_eq hval.symm⟩
    obtain ⟨pw, hpw⟩ := Option.isSome_iff_exists.mp (List.find?_isSome.mpr hex)
    rw [if_pos h5]
    rw [hfst, hfind2, hpw]
    dsimp only
    rw [hBr, if_pos h5, getRelevantTools_eq_spec]
  · rw [if_neg h5]
    cases hb : (runBest (patternScore query words) intentMap (none, 0)).1 with
    | none => exact keywordFallback_eq_spec _ _
    | some bm =>
      rw [hBr]
      dsimp only
      rw [if_neg h5]
      exact keywordFallback_eq_spec _ _

/-! ## Lemmas: the non-AI fallback's category selection (claim C4) -/

theorem maxOf_filterMap_pos (s : (String × Category) → Nat) (l : List (String × Category)) :
    maxOf (fun x : String × Nat × Category => x.2.1)
        (l.filterMap (fun kc => if 0 < s kc then some (kc.1, s kc, kc.2) else none))
      = maxOf s l := by
  induction l with
  | nil => rfl
  | cons kc rest ih =>
    by_cases h : 0 < s kc
    · simp only [List.filterMap_cons, if_pos h]
      rw [maxOf_cons, maxOf_cons, ih]
    · have h0 : s kc = 0 := by omega
      simp only [List.filterMap_cons, if_neg h]
      rw [maxOf_cons, h0, Nat.zero_max, ih]

theorem find?_filterMap_pos (s : (String × Category) → Nat)
    (l : List (String × Category)) {M : Nat} (hM : 0 < M) :
    (l.filterMap (fun kc => if 0 < s kc then some (kc.1, s kc, kc.2) else none)).find?
        (fun x => x.2.1 == M)
      = (l.find? (fun kc => s kc == M)).map (fun kc => (kc.1, s kc, kc.2)) := by
  induction l with
  | nil => rfl
  | cons kc rest ih =>
    by_cases h : 0 < s kc
    · simp only [List.filterMap_cons, if_pos h]
      by_cases he : s kc = M
      · rw [@List.find?_cons_of_pos (String × Nat × Category)
          (fun x => x.2.1 == M) (kc.1, s kc, kc.2) _ (beq_of_eq he)]
        rw [@List.find?_cons_of_pos (String × Category)
          (fun x => s x == M) kc rest (beq_of_eq he)]
        rfl
      · rw [@List.find?_cons_of_neg (String × Nat × Category)
          (fun x => x.2.1 == M) (kc.1, s kc, kc.2) _ (fun hc => he (eq_of_beq hc))]
        rw [@List.find?_cons_of_neg (String × Category)
          (fun x => s x == M) kc rest (fun hc => he (eq_of_beq hc))]
        exact ih
    · have h0 : s kc = 0 := by omega
      simp only [List.filterMap_cons, if_neg h]
      rw [@List.find?_cons_of_neg (String × Category)
        (fun x => s x == M) kc rest
        (fun hc => by have := eq_of_beq hc; omega)]
      exact ih

/-- `getFallbackRecommendation` computes what the amended C4 claim states:
its own category-keyword scoring, the first category in catalog order
attaining the maximum score, that category's tools budget-filtered and
ease-sorted and capped at three, else the default set. -/
theorem getFallbackRecommendation_eq_spec (c : Catalog) (userQuery budgetType : String) :
    getFallbackRecommendation c userQuery budgetType
      = specFallbackRecommendation c userQuery budgetType := by
  unfold getFallbackRecommendation specFallbackRecommendation specFallbackMax
  dsimp only
  set query := jsLower userQuery with hq
  set words := jsWords query with hw
  have hconv : (c.categories.map (fun kc => categoryScore query words kc.2)).foldl max 0
      = maxOf (fun kc => categoryScore query words kc.2) c.categories := by
    rw [List.foldl_map]; rfl
  rw [hconv]
  by_cases hM : 0 < maxOf (fun kc => categoryScore query words kc.2) c.categories
  · rw [head?_sortByKeyDesc, maxOf_filterMap_pos, find?_filterMap_pos _ _ hM, if_pos hM]
    cases hfind : c.categories.find?
        (fun kc => categoryScore query words kc.2 == maxOf
          (fun kc => categoryScore query words kc.2) c.categories) with
    | none => rfl
    | some kc0 => rfl
  · have hz : ∀ kc ∈ c.categories, categoryScore query words kc.2 = 0 := by
      intro kc hkc
      have hle := key_le_maxOf_of_mem (fun kc => categoryScore query words kc.2) hkc
      dsimp only at hle
      omega
    have hnil : c.categories.filterMap
        (fun kc => if 0 < categoryScore query words kc.2 then
          some (kc.1, categoryScore query words kc.2, kc.2) else none) = [] := by
      rw [List.filterMap_eq_nil_iff]
      intro kc hkc
      rw [if_neg (by rw [hz kc hkc]; omega)]
    rw [hnil, if_neg hM]
    rfl

/-! ## Lemmas: free-budget filtering (claim C1) -/

theorem all_free_category_tools (cat : Category) :
    (((sortByKeyDesc easeKey (cat.tools.filter (budgetKeep "free"))).take 3).map
        (mkRecTool cat)).all (fun r => r.tool.pricing.free) = true := by
  rw [List.all_eq_true]
  intro r hr
  rw [List.mem_map] at hr
  obtain ⟨t, ht, rfl⟩ := hr
  have ht' := List.mem_of_mem_take ht
  rw [mem_sortByKeyDesc, List.mem_filter] at ht'
  have hb := ht'.2
  unfold budgetKeep at hb
  simpa [mkRecTool] using hb

theorem getDefaultRecommendation_all_free (c : Catalog) :
    ((getDefaultRecommendation c "free").tools).all (fun r => r.tool.pricing.free) = true := by
  unfold getDefaultRecommendation
  dsimp only
  rw [List.all_eq_true]
  intro r hr
  have hr' := List.mem_of_mem_take hr
  rw [List.mem_filter] at hr'
  simpa using hr'.2

theorem getFallbackRecommendation_all_free (c : Catalog) (q : String) :
    ((getFallbackRecommendation c q "free").tools).all (fun r => r.tool.pricing.free) = true := by
  unfold getFallbackRecommendation
  dsimp only
  cases hh : (sortByKeyDesc (fun x : String × Nat × Category => x.2.1)
      (c.categories.filterMap fun kc =>
        if 0 < categoryScore (jsLower q) (jsWords (jsLower q)) kc.2 then
          some (kc.1, categoryScore (jsLower q) (jsWords (jsLower q)) kc.2, kc.2)
        else none)).head? with
  | none => exact getDefaultRecommendation_all_free c
  | some best => exact all_free_category_tools best.2.2

theorem getToolsFromCategory_all_free (c : Catalog) (key q : String) :
    ((getToolsFromCategory c key "free" q).tools).all (fun r => r.tool.pricing.free) = true := by
  unfold getToolsFromCategory
  cases hlook : lookupCat c.categories key with
  | none => exact getFallbackRecommendation_all_free c q
  | some cat => exact all_free_category_tools cat

theorem enrichRecommendations_all_free (c : Catalog) (g : GeminiParsed) :
    ((enrichRecommendations c g "free").tools).all (fun r => r.tool.pricing.free) = true := by
  unfold enrichRecommendations
  dsimp only
  rw [List.all_eq_true]
  intro r hr
  have hr' := List.mem_of_mem_take hr
  rw [List.mem_flatMap] at hr'
  obtain ⟨kc, _, hrm⟩ := hr'
  rw [List.mem_map] at hrm
  obtain ⟨t, ht, rfl⟩ := hrm
  rw [List.mem_filter] at ht
  have hpred := ht.2
  simp only [Bool.and_eq_true, Bool.not_eq_true'] at hpred
  rcases hpred with ⟨_, hfree⟩
  simpa [mkRecTool] using hfree

theorem getToolsByIds_all_free (c : Catalog) (ids : List String) :
    (getToolsByIds c ids "free").all (fun r => r.tool.pricing.free) = true := by
  unfold getToolsByIds
  rw [List.all_eq_true]
  intro r hr
  rw [List.mem_filterMap] at hr
  obtain ⟨i, _, hi⟩ := hr
  cases hfind : findToolById c i with
  | none => rw [hfind] at hi; cases hi
  | some t =>
    rw [hfind] at hi
    dsimp only at hi
    by_cases hf : t.tool.pricing.free
    · have : (if ("free" == "free") && !t.tool.pricing.free then none else some t) = some t := by
        simp [hf]
      rw [this] at hi
      cases hi
      exact hf
    · have : (if ("free" == "free") && !t.tool.pricing.free then none else some t)
        = (none : Option RecTool) := by simp [hf]
      rw [this] at hi
      cases hi

/-! ## Lemmas: guidance results (claim C3) -/

theorem detectToolGuidance_some (flat : List FlatTool) (query : String) (r : IntentResult)
    (h : detectToolGuidance flat query = some r) :
    r.matched = true ∧ r.confidence = 1 := by
  unfold detectToolGuidance at h
  by_cases hs : guidanceSignals.any (fun s => jsIncludes query s)
  · rw [if_pos hs] at h
    cases hf : flat.find? (fun t =>
        jsIncludes query (jsLower t.tool.name) || jsIncludes query (jsLower t.tool.id)) with
    | none => rw [hf] at h; cases h
    | some t =>
      rw [hf] at h
      injection h with h2
      subst h2
      exact ⟨rfl, rfl⟩
  · rw [if_neg hs] at h
    cases h

/-! ## Lemmas: the discovery commit (claims C6, C9) -/

theorem foldl_add_length (l : List (String × Category)) (n : Nat) :
    l.foldl (fun s kc => s + kc.2.tools.length) n
      = n + (l.map (fun kc => kc.2.tools.length)).sum := by
  induction l generalizing n with
  | nil => simp
  | cons kc rest ih =>
    rw [List.foldl_cons, ih, List.map_cons, List.sum_cons]
    omega

theorem lookup_setCat_self (cats : List (String × Category)) (k : String) (v : Category)
    (h : (lookupCat cats k).isSome) :
    lookupCat (setCat cats k v) k = some v := by
  induction cats with
  | nil => simp [lookupCat] at h
  | cons kc rest ih =>
    rw [setCat]
    by_cases hk : kc.1 == k
    · rw [if_pos hk]
      unfold lookupCat
      rw [@List.find?_cons_of_pos (String × Category)
        (fun x => x.1 == k) (kc.1, v) _ hk]
      rfl
    · rw [if_neg hk]
      unfold lookupCat at h ⊢
      rw [@List.find?_cons_of_neg (String × Category)
        (fun x => x.1 == k) kc _ (by simpa using hk)] at h
      rw [@List.find?_cons_of_neg (String × Category)
        (fun x => x.1 == k) kc _ (by simpa using hk)]
      exact ih h

theorem sum_setCat (cats : List (String × Category)) (k : String) (cat : Category)
    (e : Tool) (h : lookupCat cats k = some cat) :
    ((setCat cats k { cat with tools := cat.tools ++ [e] }).map
        (fun kc => kc.2.tools.length)).sum
      = (cats.map (fun kc => kc.2.tools.length)).sum + 1 := by
  induction cats with
  | nil => simp [lookupCat] at h
  | cons kc rest ih =>
    rw [setCat]
    by_cases hk : kc.1 == k
    · rw [if_pos hk]
      have hcat : kc.2 = cat := by
        unfold lookupCat at h
        rw [@List.find?_cons_of_pos (String × Category)
          (fun x => x.1 == k) kc _ hk] at h
        simpa using h
      rw [List.map_cons, List.map_cons, List.sum_cons, List.sum_cons, ← hcat]
      simp only [List.length_append, List.length_cons, List.length_nil]
      omega
    · rw [if_neg hk]
      unfold lookupCat at h
      rw [@List.find?_cons_of_neg (String × Category)
        (fun x => x.1 == k) kc _ (by simpa using hk)] at h
      rw [List.map_cons, List.map_cons, List.sum_cons, List.sum_cons, ih h]
      omega

/-- Inversion of a successful `addToolToDatabase`. -/
theorem addToolToDatabase_inv (today : String) (db : Catalog) (tool : CatEntry)
    (db2 : Catalog) (h : addToolToDatabase today db tool = some db2) :
    ∃ cat, lookupCat db.categories tool.category = some cat
      ∧ (cat.tools.find? (fun t => t.id == tool.id)) = none
      ∧ db2.categories = setCat db.categories tool.category
          { cat with tools := cat.tools ++ [toToolEntry tool] }
      ∧ db2.metadata.totalTools
          = totalToolCount ⟨setCat db.categories tool.category
              { cat with tools := cat.tools ++ [toToolEntry tool] }, db.metadata⟩ := by
  unfold addToolToDatabase at h
  cases hlook : lookupCat db.categories tool.category with
  | none => rw [hlook] at h; cases h
  | some cat =>
    rw [hlook] at h
    dsimp only at h
    by_cases hdup : (cat.tools.find? (fun t => t.id == tool.id)).isSome
    · rw [if_pos hdup] at h; cases h
    · rw [if_neg hdup] at h
      injection h with h2
      refine ⟨cat, rfl, ?_, ?_, ?_⟩
      · cases hfind : cat.tools.find? (fun t => t.id == tool.id) with
        | none => rfl
        | some t => exfalso; exact hdup (by rw [hfind]; rfl)
      · rw [← h2]
      · rw [← h2]

/-- A candidate the classifier rejects (`isAITool: false`) fails without
touching either persisted document, whichever path rejects it. -/
theorem discover_notAITool (today now : String) (raw : RawData) (e : CatEntry)
    (st : ScraperState) (h : e.isAITool = false) :
    (discoverToolByUrl today now (some raw) (.success e) st).1.success = false
      ∧ (discoverToolByUrl today now (some raw) (.success e) st).2 = st := by
  unfold discoverToolByUrl
  dsimp only
  by_cases hdup : (getExistingToolIds st.db).contains (titleToolName raw.title)
  · rw [if_pos hdup]
    exact ⟨rfl, rfl⟩
  · rw [if_neg hdup]
    have hcat : categorizeWithAI (.success e) raw = none := by
      unfold categorizeWithAI
      dsimp only
      rw [h]
      rfl
    rw [hcat]
    exact ⟨rfl, rfl⟩

/-- Replaying `discoverToolByUrl` on the state left by a successful first call,
with the fetch and the classification returning the same results, always
fails and leaves the state unchanged: either the title-derived name now
collides, or the commit rejects the duplicate id within the same category. -/
theorem discover_replay_fails (today now today2 now2 : String) (raw : RawData)
    (ai : AIOutcome) (st : ScraperState) (r : DiscoverResult) (st2 : ScraperState)
    (h : discoverToolByUrl today now (some raw) ai st = (r, st2))
    (hsucc : r.success = true) :
    (discoverToolByUrl today2 now2 (some raw) ai st2).1.success = false
      ∧ (discoverToolByUrl today2 now2 (some raw) ai st2).2 = st2
      ∧ ((discoverToolByUrl today2 now2 (some raw) ai st2).1.error
            = some "Tool already exists in database"
          ∨ (discoverToolByUrl today2 now2 (some raw) ai st2).1.error
            = some "Failed to add to database") := by
  unfold discoverToolByUrl at h
  dsimp only at h
  by_cases hdup : (getExistingToolIds st.db).contains (titleToolName raw.title)
  · rw [if_pos hdup] at h
    injection h with hr hst
    rw [← hr] at hsucc
    cases hsucc
  · rw [if_neg hdup] at h
    cases hcat : categorizeWithAI ai raw with
    | none =>
      rw [hcat] at h
      injection h with hr hst
      rw [← hr] at hsucc
      cases hsucc
    | some e =>
      rw [hcat] at h
      dsimp only at h
      cases hadd : addToolToDatabase today st.db e with
      | none =>
        rw [hadd] at h
        dsimp only at h
        injection h with hr hst
        rw [← hr] at hsucc
        cases hsucc
      | some db2 =>
        rw [hadd] at h
        dsimp only at h
        injection h with hr hst
        obtain ⟨cat, hlook, hnodup, hcats2, _⟩ := addToolToDatabase_inv _ _ _ _ hadd
        have hdb : st2.db = db2 := by rw [← hst]
        unfold discoverToolByUrl
        dsimp only
        by_cases hdup2 : (getExistingToolIds st2.db).contains (titleToolName raw.title)
        · rw [if_pos hdup2]
          exact ⟨rfl, rfl, Or.inl rfl⟩
        · rw [if_neg hdup2, hcat]
          dsimp only
          have hnone : addToolToDatabase today2 st2.db e = none := by
            unfold addToolToDatabase
            have hlook2 : lookupCat st2.db.categories e.category
                = some { cat with tools := cat.tools ++ [toToolEntry e] } := by
              rw [hdb, hcats2]
              exact lookup_setCat_self _ _ _ (by rw [hlook]; rfl)
            rw [hlook2]
            dsimp only
            rw [if_pos ?hfound]
            case hfound =>
              rw [List.find?_isSome]
              exact ⟨toToolEntry e, List.mem_append_right _ (List.mem_singleton_self _),
                beq_self_eq_true _⟩
          rw [hnone]
          exact ⟨rfl, rfl, Or.inr rfl⟩

/-! ## Claim C5 -/

/-- Claim C5, counterexample: with history `[user: "i want a logo",
assistant: budget question, user: "tell me a joke"]` and message "free", the
most recent assistant turn contains both "free" and "premium", yet the
short-circuit's `originalQuery` is the last user turn of the whole history
("tell me a joke"), not the user turn preceding the budget question
("i want a logo") as the claim states. -/
theorem C5_counterexample :
    ((c5history.filter (fun m => m.role == "assistant")).getLast?).map
        (fun m => jsIncludes (jsLower m.content) "free"
          && jsIncludes (jsLower m.content) "premium") = some true
      ∧ Legacy.getGroqResponse "free" c5history
          = .direct "free" "tell me a joke"
      ∧ "tell me a joke" ≠ "i want a logo" := by
  refine ⟨by decide, by decide, by decide⟩

/-- Claim C5 (amended): whenever the most recent assistant turn of the history
contains both "free" and "premium" (case-insensitively), the legacy
conversation handler answers the standalone budget message "free" with the
`direct_recommendation` short-circuit — budget "free", `originalQuery` the
most recent user turn anywhere in the history (the turn preceding the budget
question whenever the budget question is the final history entry; the literal
message when the history has no user turn) — without consulting the AI
strategy. -/
theorem C5_amended_budget_shortcircuit (history : List Msg) (a : Msg)
    (hA : (history.filter (fun m => m.role == "assistant")).getLast? = some a)
    (h1 : jsIncludes (jsLower a.content) "free" = true)
    (h2 : jsIncludes (jsLower a.content) "premium" = true) :
    Legacy.getGroqResponse "free" history
      = .direct "free"
          (match (history.filter (fun m => m.role == "user")).getLast? with
           | some m => m.content
           | none => "free") := by
  have hne : history ≠ [] := by
    intro hnil
    subst hnil
    simp [List.filter_nil] at hA
  have hlen : (decide (0 < history.length)) = true :=
    decide_eq_true (List.length_pos.mpr hne)
  unfold Legacy.getGroqResponse
  dsimp only
  rw [hA]
  dsimp only
  rw [h1, h2]
  have hsb : Legacy.isStandaloneBudgetAnswer (jsTrim (jsLower "free")) = true := by decide
  rw [hsb, hlen]
  rfl

/-- Witness for C5 (amended) at a concrete two-turn history. -/
theorem C5_amended_budget_shortcircuit_witness :
    ((c5history2.filter (fun m => m.role == "assistant")).getLast?
        = some { role := "assistant",
                 content := "Would you prefer free tools or premium options?" })
      ∧ Legacy.getGroqResponse "free" c5history2
          = .direct "free" "i want to build a website" := by
  constructor
  · decide
  · have h := C5_amended_budget_shortcircuit c5history2
      { role := "assistant", content := "Would you prefer free tools or premium options?" }
      (by decide) (by decide) (by decide)
    rw [h]
    rfl

/-! ## Claim C1 -/

/-- Claim C1: with budget "free", every result-producing recommendation path —
direct category resolution, AI-result enrichment, keyword fallback, the
default set, and id-list lookup — returns only tools with `pricing.free`. -/
theorem C1_free_budget_excludes_paid (c : Catalog) (key q : String)
    (g : GeminiParsed) (ids : List String) :
    ((getToolsFromCategory c key "free" q).tools).all (fun r => r.tool.pricing.free) = true
      ∧ ((enrichRecommendations c g "free").tools).all (fun r => r.tool.pricing.free) = true
      ∧ ((getFallbackRecommendation c q "free").tools).all (fun r => r.tool.pricing.free) = true
      ∧ ((getDefaultRecommendation c "free").tools).all (fun r => r.tool.pricing.free) = true
      ∧ (getToolsByIds c ids "free").all (fun r => r.tool.pricing.free) = true :=
  ⟨getToolsFromCategory_all_free c key q,
   enrichRecommendations_all_free c g,
   getFallbackRecommendation_all_free c q,
   getDefaultRecommendation_all_free c,
   getToolsByIds_all_free c ids⟩

/-! ## Claim C2 -/

/-- Claim C2: on every query that does not trigger guidance detection,
`analyzeIntent` computes exactly the §4.1 step 2–3 algorithm as the claim
states it — weighted-count pattern scores, first-maximum winner, the ≥ 5
acceptance with `min(score/20, 1)` confidence and the resolved-deduplicated-
padded tool list, and otherwise the keyword fallback with its top-six /
confidence-0.3 / matched-false behaviour — and, being a total function, it
never throws. -/
theorem C2_analyzeIntent_matches_spec (c : Catalog) (q : String)
    (h : detectToolGuidance (flattenTools c) (jsTrim (jsLower q)) = none) :
    analyzeIntent c q = specAnalyzeIntent c q :=
  analyzeIntent_eq_spec c q h

/-- Witness for C2: a concrete non-guidance query on a concrete catalog. -/
theorem C2_analyzeIntent_matches_spec_witness :
    detectToolGuidance (flattenTools sampleCatalog)
        (jsTrim (jsLower "I need a logo for my startup")) = none
      ∧ analyzeIntent sampleCatalog "I need a logo for my startup"
          = specAnalyzeIntent sampleCatalog "I need a logo for my startup" :=
  ⟨by decide, C2_analyzeIntent_matches_spec sampleCatalog "I need a logo for my startup" (by decide)⟩

/-! ## Claim C3 -/

/-- Claim C3, counterexample: the query "logo video" contains the exact intent
phrase "video", owned by the video-creation pattern, yet `analyzeIntent`
returns category "design" — the first-in-table pattern among the top scorers —
not that phrase's pattern's category. -/
theorem C3_counterexample :
    videoEditPattern ∈ intentMap
      ∧ "video" ∈ videoEditPattern.intents
      ∧ videoEditPattern.category = "video_creation"
      ∧ jsIncludes (jsTrim (jsLower "logo video")) "video" = true
      ∧ (analyzeIntent emptyCatalog "logo video").matched = true
      ∧ (analyzeIntent emptyCatalog "logo video").category = some "design"
      ∧ (analyzeIntent emptyCatalog "logo video").category ≠ some videoEditPattern.category := by
  refine ⟨by decide, by decide, by decide, by decide, by decide, by decide, by decide⟩

/-- Claim C3 (amended): for every query containing (case-insensitively, as a
substring of its lowercased trimmed form) at least one exact intent phrase
from the static pattern table, `analyzeIntent` returns `matched=true` with
confidence ≥ 0.5; the returned category is the highest-scoring pattern's
(first in table order on ties) — or the guided tool's when guidance detection
fires — and need not be the category of the pattern owning the phrase. -/
theorem C3_amended_confidence (c : Catalog) (q : String) (p : IntentPattern)
    (phrase : String) (hp : p ∈ intentMap) (hmem : phrase ∈ p.intents)
    (hinc : jsIncludes (jsTrim (jsLower q)) phrase = true) :
    (analyzeIntent c q).matched = true
      ∧ (1 : ℚ)/2 ≤ (analyzeIntent c q).confidence := by
  cases hgd : detectToolGuidance (flattenTools c) (jsTrim (jsLower q)) with
  | some g =>
    have heq : analyzeIntent c q = g := by
      unfold analyzeIntent
      dsimp only
      rw [hgd]
    obtain ⟨hm, hc⟩ := detectToolGuidance_some _ _ _ hgd
    rw [heq, hm, hc]
    exact ⟨rfl, by norm_num⟩
  | none =>
    rw [analyzeIntent_eq_spec c q hgd]
    unfold specAnalyzeIntent
    dsimp only
    set query := jsTrim (jsLower q) with hq
    set words := jsWords query with hw
    set B := (intentMap.map (specPatternScore query words)).foldl max 0 with hB
    have hsp : 20 ≤ specPatternScore query words p := by
      unfold specPatternScore
      have hcount : 0 < p.intents.countP (jsIncludes query) := by
        rw [List.countP_pos_iff]
        exact ⟨phrase, hmem, hinc⟩
      omega
    have hBfold : B = intentMap.foldl (fun m p => max m (specPatternScore query words p)) 0 := by
      rw [hB, List.foldl_map]
    have hBge : 20 ≤ B := by
      have hle := le_foldl_max_of_mem (specPatternScore query words) hp 0
      rw [← hBfold] at hle
      omega
    rw [if_pos (by omega : 5 ≤ B)]
    have hex : ∃ pw ∈ intentMap, (specPatternScore query words pw == B) = true := by
      rcases foldl_max_attained (specPatternScore query words) intentMap 0 with
        hz | ⟨p0, hp0, hval⟩
      · exfalso; rw [← hBfold] at hz; omega
      · rw [← hBfold] at hval
        exact ⟨p0, hp0, beq_of_eq hval.symm⟩
    obtain ⟨pw, hpw⟩ := Option.isSome_iff_exists.mp (List.find?_isSome.mpr hex)
    rw [hpw]
    dsimp only
    refine ⟨rfl, ?_⟩
    have h1 : (1 : ℚ) ≤ (B : ℚ)/20 := by
      rw [le_div_iff₀ (by norm_num : (0:ℚ) < 20)]
      have : (20 : ℚ) ≤ (B : ℚ) := by exact_mod_cast hBge
      linarith
    rw [min_eq_right h1]
    norm_num

/-- Witness for C3 (amended) at a concrete query and catalog. -/
theorem C3_amended_confidence_witness :
    (logoPattern ∈ intentMap
        ∧ "logo" ∈ logoPattern.intents
        ∧ jsIncludes (jsTrim (jsLower "I want a logo for my shop")) "logo" = true)
      ∧ ((analyzeIntent sampleCatalog "I want a logo for my shop").matched = true
          ∧ (1 : ℚ)/2 ≤ (analyzeIntent sampleCatalog "I want a logo for my shop").confidence) :=
  ⟨⟨by decide, by decide, by decide⟩,
   C3_amended_confidence sampleCatalog "I want a logo for my shop" logoPattern "logo"
     (by decide) (by decide) (by decide)⟩

/-! ## Claim C4 -/

/-- Claim C4, counterexample: on the query "mvp" with a free budget,
`analyzeIntent` matches the app-building intent pattern and (budget-filtered,
ease-sorted, capped at 3) would return `lovable`, while
`getFallbackRecommendation` — whose category-keyword scoring knows nothing of
"mvp" — returns the default set (empty here) under category "General AI":
the two algorithms disagree on both category and tools. -/
theorem C4_counterexample :
    (analyzeIntent c4cat "mvp").category = some "app_building"
      ∧ (((sortByKeyDesc easeKey
            (((analyzeIntent c4cat "mvp").tools.map (fun t => t.tool)).filter
              (budgetKeep "free"))).take 3).map (fun t => t.id)) = ["lovable"]
      ∧ (getFallbackRecommendation c4cat "mvp" "free").category = "General AI"
      ∧ ((getFallbackRecommendation c4cat "mvp" "free").tools.map (fun r => r.tool.id)) = []
      ∧ ((getFallbackRecommendation c4cat "mvp" "free").tools.map (fun r => r.tool.id))
          ≠ (((sortByKeyDesc easeKey
            (((analyzeIntent c4cat "mvp").tools.map (fun t => t.tool)).filter
              (budgetKeep "free"))).take 3).map (fun t => t.id)) := by
  refine ⟨by decide, by decide, by decide, by decide, by decide⟩

/-- Claim C4 (amended): the non-AI fallback does not re-run the Intent
Matcher; it selects the category by its own keyword scoring (the first
category in catalog order attaining the maximum score), returns that
category's tools restricted to the requested budget, sorted by descending
ease, capped at three, and falls back to the fixed default set when no
category scores above zero — for every catalog, query and budget. -/
theorem C4_amended_fallback_spec (c : Catalog) (q b : String) :
    getFallbackRecommendation c q b = specFallbackRecommendation c q b :=
  getFallbackRecommendation_eq_spec c q b

/-! ## Claim C6 -/

/-- Claim C6: after every successful discovery commit, the persisted catalog's
`metadata.totalTools` equals the sum of the tools-array lengths over all
categories — recomputed from the category buckets (and in fact equal to the
previous total plus one), never drifted. -/
theorem C6_totalTools_recomputed (today : String) (db : Catalog) (tool : CatEntry)
    (db2 : Catalog) (h : addToolToDatabase today db tool = some db2) :
    db2.metadata.totalTools = totalToolCount db2
      ∧ db2.metadata.totalTools = totalToolCount db + 1 := by
  obtain ⟨cat, hlook, hnodup, hcats2, hmeta⟩ := addToolToDatabase_inv today db tool db2 h
  constructor
  · rw [hmeta]
    unfold totalToolCount
    rw [hcats2]
  · rw [hmeta]
    unfold totalToolCount
    dsimp only
    rw [foldl_add_length, foldl_add_length, sum_setCat _ _ _ _ hlook]
    omega

/-- Witness for C6 at a concrete commit. -/
theorem C6_totalTools_recomputed_witness :
    addToolToDatabase "2026-03-03" c7db e7 = some c7dbAfter
      ∧ c7dbAfter.metadata.totalTools = totalToolCount c7dbAfter
      ∧ c7dbAfter.metadata.totalTools = totalToolCount c7db + 1 :=
  ⟨by decide,
   (C6_totalTools_recomputed "2026-03-03" c7db e7 c7dbAfter (by decide)).1,
   (C6_totalTools_recomputed "2026-03-03" c7db e7 c7dbAfter (by decide)).2⟩

/-! ## Claim C7 -/

/-- Claim C7 is violated by the code: starting from a catalog whose tool ids
are pairwise distinct ("foo" lives in `design`), `addToolToDatabase` — whose
duplicate check only inspects the target category's bucket — commits a
classifier entry with the same id "foo" into `writing`, leaving two tools
with the same id in the catalog. -/
theorem C7_duplicate_id_committed :
    (catalogIds c7db).Nodup
      ∧ (addToolToDatabase "2026-03-03" c7db e7).map catalogIds = some ["foo", "foo"]
      ∧ ¬ (["foo", "foo"] : List String).Nodup := by
  refine ⟨by decide, by decide, by decide⟩

/-! ## Claim C8 -/

/-- Claim C8: when the classification capability answers `isAITool: false`
for a fetched candidate, `discoverToolByUrl` returns `success=false` and the
operation has no effect on state: the whole catalog document (hence
`metadata.totalTools`) and the discovery log are unchanged. -/
theorem C8_not_ai_tool_no_effect (today now : String) (raw : RawData) (e : CatEntry)
    (st : ScraperState) (h : e.isAITool = false) :
    (discoverToolByUrl today now (some raw) (.success e) st).1.success = false
      ∧ (discoverToolByUrl today now (some raw) (.success e) st).2 = st
      ∧ (discoverToolByUrl today now (some raw) (.success e) st).2.db.metadata.totalTools
          = st.db.metadata.totalTools
      ∧ (discoverToolByUrl today now (some raw) (.success e) st).2.log = st.log := by
  obtain ⟨h1, h2⟩ := discover_notAITool today now raw e st h
  exact ⟨h1, h2, by rw [h2], by rw [h2]⟩

/-- Witness for C8 at a concrete rejected candidate. -/
theorem C8_not_ai_tool_no_effect_witness :
    notAIEntry.isAITool = false
      ∧ ((discoverToolByUrl "d" "t" (some rawAcme) (.success notAIEntry) scrapeSt).1.success = false
          ∧ (discoverToolByUrl "d" "t" (some rawAcme) (.success notAIEntry) scrapeSt).2 = scrapeSt
          ∧ (discoverToolByUrl "d" "t" (some rawAcme)
              (.success notAIEntry) scrapeSt).2.db.metadata.totalTools
              = scrapeSt.db.metadata.totalTools
          ∧ (discoverToolByUrl "d" "t" (some rawAcme) (.success notAIEntry) scrapeSt).2.log
              = scrapeSt.log) :=
  ⟨rfl, C8_not_ai_tool_no_effect "d" "t" rawAcme notAIEntry scrapeSt rfl⟩

/-! ## Claim C9 -/

/-- Claim C9, counterexample: discovery by URL is not idempotent against the
code when the classification capability answers differently on the replay —
the second `discoverToolByUrl` on the same URL succeeds (the classifier
returned a fresh id) and `metadata.totalTools` grows from 1 to 2. -/
theorem C9_counterexample :
    (discoverToolByUrl "d1" "t1" (some rawAcme) (.success acmeEntry) scrapeSt).1.success = true
      ∧ (discoverToolByUrl "d2" "t2" (some rawAcme) (.success acmeEntry2)
          ((discoverToolByUrl "d1" "t1" (some rawAcme) (.success acmeEntry) scrapeSt).2)).1.success
          = true
      ∧ (discoverToolByUrl "d1" "t1" (some rawAcme)
          (.success acmeEntry) scrapeSt).2.db.metadata.totalTools = 1
      ∧ (discoverToolByUrl "d2" "t2" (some rawAcme) (.success acmeEntry2)
          ((discoverToolByUrl "d1" "t1" (some rawAcme)
            (.success acmeEntry) scrapeSt).2)).2.db.metadata.totalTools = 2 := by
  refine ⟨by decide, by decide, by decide, by decide⟩

/-- Claim C9 (amended): when the fetch and the classification return the same
results as on the first, successful call, a second `discoverToolByUrl` on the
same URL returns `success=false`, leaves the state (hence
`metadata.totalTools`) unchanged, and reports either the duplicate-entity
message "Tool already exists in database" (when the title-derived name now
collides) or the generic "Failed to add to database" (the in-category
duplicate-id rejection). -/
theorem C9_amended_replay (today now today2 now2 : String) (raw : RawData)
    (ai : AIOutcome) (st : ScraperState) (r : DiscoverResult) (st2 : ScraperState)
    (h : discoverToolByUrl today now (some raw) ai st = (r, st2))
    (hsucc : r.success = true) :
    (discoverToolByUrl today2 now2 (some raw) ai st2).1.success = false
      ∧ (discoverToolByUrl today2 now2 (some raw) ai st2).2 = st2
      ∧ (discoverToolByUrl today2 now2 (some raw) ai st2).2.db.metadata.totalTools
          = st2.db.metadata.totalTools
      ∧ ((discoverToolByUrl today2 now2 (some raw) ai st2).1.error
            = some "Tool already exists in database"
          ∨ (discoverToolByUrl today2 now2 (some raw) ai st2).1.error
            = some "Failed to add to database") := by
  obtain ⟨h1, h2, h3⟩ := discover_replay_fails today now today2 now2 raw ai st r st2 h hsucc
  exact ⟨h1, h2, by rw [h2], h3⟩

/-- Witness for C9 (amended) at a concrete first call and replay. -/
theorem C9_amended_replay_witness :
    discoverToolByUrl "d1" "t1" (some rawAcme) (.success acmeEntry) scrapeSt
        = ({ success := true, tool := some acmeEntry }, scrapeSt1)
      ∧ ((discoverToolByUrl "d2" "t2" (some rawAcme) (.success acmeEntry) scrapeSt1).1.success
            = false
          ∧ (discoverToolByUrl "d2" "t2" (some rawAcme) (.success acmeEntry) scrapeSt1).2
            = scrapeSt1
          ∧ (discoverToolByUrl "d2" "t2" (some rawAcme)
              (.success acmeEntry) scrapeSt1).2.db.metadata.totalTools
            = scrapeSt1.db.metadata.totalTools
          ∧ ((discoverToolByUrl "d2" "t2" (some rawAcme)
                (.success acmeEntry) scrapeSt1).1.error
              = some "Tool already exists in database"
            ∨ (discoverToolByUrl "d2" "t2" (some rawAcme)
                (.success acmeEntry) scrapeSt1).1.error
              = some "Failed to add to database")) :=
  ⟨by decide,
   C9_amended_replay "d1" "t1" "d2" "t2" rawAcme (.success acmeEntry) scrapeSt
     { success := true, tool := some acmeEntry } scrapeSt1 (by decide) (by decide)⟩

/-! ## Claim C10 -/

/-- Claim C10: the deterministic fallback categorizer never rejects a
candidate — it always returns `isAITool: true` with the conservative defaults
`pricing = {free: true, premium: null}` and `ease = 3` — and when the
classification capability is absent or its call fails, `categorizeWithAI`
returns exactly this entry, so the non-AI discovery path can never turn a
fetched candidate away as "not an AI tool". -/
theorem C10_basicCategorize_never_rejects (td : RawData) :
    (basicCategorize td).isAITool = true
      ∧ (basicCategorize td).pricing = { free := true, premium := none }
      ∧ (basicCategorize td).ease = 3
      ∧ categorizeWithAI .unavailable td = some (basicCategorize td)
      ∧ categorizeWithAI .failure td = some (basicCategorize td) :=
  ⟨rfl, rfl, rfl, rfl, rfl⟩

end Decy
